import Mathlib

set_option maxHeartbeats 1000000

/-!
Shallow embedding of the resolver pass in `src/resolver/resolver.cc`.

The embedding models the data the resolver manipulates:

* `SymbolRef` values are opaque numeric ids (0 is `noSymbol`, mirroring
  `core::SymbolRef::exists()`); the distinguished well-known symbols
  (`root`, `todo`, `untyped`, the three stubs, `T`, `Subclasses`) get fixed
  distinct ids.
* `GlobalState` carries the symbol table (`symbols`), the heap of
  `ast::ConstantLit` nodes (`nodes`, since jobs hold pointers to shared
  mutable nodes), the error queue (`errors`, appended in emission order),
  and the external symbol-table primitives that `resolver.cc` consumes but
  does not define (`findMemberTransitive`, `dealiasF`, `fuzzy`,
  `derivesFromF`, `enclosingClassF`, `getResultTypeF`): these are fields so
  that each theorem holds for every behaviour of the external services.
* `attempts` is an instrumentation trace recording which kind of pending
  job the fixpoint loop attempts, in order; `tsCalls` records invocations
  of the external type-syntax service.  Neither is read by any modelled
  code path, they only observe it.

Expression locations other than those stored on `ConstantLit` nodes are
not modelled (no claim depends on them); errors whose location comes from
a plain expression use `dummyLoc`.
-/

/-! ## Basic identifiers and well-known symbols -/

abbrev SymbolRef := Nat
abbrev NameRef := Nat
abbrev NodeId := Nat
abbrev FileRef := Nat

def noSymbol : SymbolRef := 0
def rootSym : SymbolRef := 1
def todoSym : SymbolRef := 2
def untypedSym : SymbolRef := 3
def stubModuleSym : SymbolRef := 4
def stubSuperClassSym : SymbolRef := 5
def stubMixinSym : SymbolRef := 6
def tSym : SymbolRef := 7
def subclassesSym : SymbolRef := 8

/-- Mirrors `core::SymbolRef::exists()`: every id other than `noSymbol`. -/
def symExists (s : SymbolRef) : Bool := s != 0

/-- Mirrors `core::Names::typeAlias()`. -/
def typeAliasName : NameRef := 50
/-- Mirrors `core::Names::untyped()`. -/
def untypedName : NameRef := 51

/-! ## Strictness levels, locations, types -/

/-- Mirrors `core::StrictLevel` (`Ignore < False < True < Strict < Strong`). -/
inductive StrictLevel where
  | ignore
  | flse
  | tru
  | strict
  | strong
deriving DecidableEq, Repr

/-- Numeric rank of a strictness level, used by the `<` comparison. -/
def StrictLevel.lvl : StrictLevel → Nat
  | .ignore => 0
  | .flse => 1
  | .tru => 2
  | .strict => 3
  | .strong => 4

structure Loc where
  file : FileRef
  beginPos : Nat
  endPos : Nat
deriving DecidableEq, Repr

def dummyLoc : Loc := ⟨0, 0, 0⟩

/-- Model of `core::TypePtr` values the resolver stores. -/
inductive Ty where
  | untypedBlame (blame : SymbolRef)
  | untypedUntracked
  | aliasTy (target : SymbolRef)
  | bottomTy
  | topTy
  | miscTy (n : Nat)
deriving DecidableEq, Repr

/-! ## AST model -/

/-- Model of the expressions the constant walk inspects.  `constLit` is a
reference into the shared mutable heap of `ast::ConstantLit` nodes;
`resolvedLit` models a `ConstantLit` built by `ast::MK` with its symbol
already set and no `original` (such nodes are never the target of a
resolution job). -/
inductive Expr where
  | emptyTree
  | constLit (id : NodeId)
  | resolvedLit (sym : SymbolRef)
  | send (recv : Expr) (fn : NameRef) (args : List Expr)
  | selfRef
  | otherE

/-- Model of `ast::UnresolvedConstantLit`: a scope expression plus the
textual constant name. -/
structure UnresolvedLit where
  scope : Expr
  cnst : NameRef
  loc : Loc

/-- Model of `ast::ConstantLit` heap nodes. -/
structure ConstLit where
  symbol : SymbolRef
  resolutionScope : SymbolRef
  original : Option UnresolvedLit
  loc : Loc

/-! ## Symbol data and global state -/

/-- Per-symbol payload of the symbol table, restricted to the fields
`resolver.cc` reads or writes. -/
structure SymData where
  isTypeAlias : Bool
  isClass : Bool
  isStaticField : Bool
  isClassSealed : Bool
  resultType : Option Ty
  superClass : SymbolRef
  mixins : List SymbolRef
  members : NameRef → SymbolRef
  name : NameRef
  symLoc : Loc
  typeMembers : List SymbolRef
  owner : SymbolRef
  sealedSubs : List SymbolRef

/-- A symbol with every flag clear and no members, the default payload. -/
def blankSym : SymData :=
  ⟨false, false, false, false, none, noSymbol, [], fun _ => noSymbol, 0, dummyLoc, [], noSymbol, []⟩

/-- An error queue entry: code, location and (for `StubConstant`) the
fuzzy-match suggestions attached to it. -/
structure ErrRec where
  code : Nat
  loc : Loc
  suggestions : List SymbolRef
deriving DecidableEq, Repr

def errDynamicConstant : Nat := 1
def errConstantInTypeAlias : Nat := 2
def errRecursiveTypeAlias : Nat := 3
def errStubConstant : Nat := 4
def errTypeAliasInGenericClass : Nat := 5
def errReassignsTypeAlias : Nat := 6
def errRecursiveClassAlias : Nat := 7
def errDynamicSuperclass : Nat := 8
def errCircularDependency : Nat := 9
def errRedefinitionOfParents : Nat := 10
def errInvalidTypeAlias : Nat := 11
def errParentTypeBoundsMismatch : Nat := 12
def errInvalidTypeMemberBounds : Nat := 13

/-- Kinds of pending work, used by the instrumentation trace that records
which job the fixpoint loop attempts. -/
inductive JobKind where
  | ancestorK
  | constantK
  | classAliasK
  | typeAliasK
deriving DecidableEq, Repr

structure GlobalState where
  symbols : SymbolRef → SymData
  nodes : NodeId → ConstLit
  findMemberTransitive : SymbolRef → NameRef → SymbolRef
  dealiasF : SymbolRef → SymbolRef
  fuzzy : SymbolRef → NameRef → List SymbolRef
  derivesFromF : SymbolRef → SymbolRef → Bool
  getResultTypeF : Expr → Ty
  enclosingClassF : SymbolRef → SymbolRef
  searchFuel : Nat
  fileStrict : FileRef → StrictLevel
  fileExistsF : FileRef → Bool
  errors : List ErrRec
  attempts : List JobKind
  tsCalls : List SymbolRef

def GlobalState.addError (gs : GlobalState) (code : Nat) (loc : Loc)
    (sugg : List SymbolRef) : GlobalState :=
  { gs with errors := gs.errors ++ [⟨code, loc, sugg⟩] }

def updSym (gs : GlobalState) (s : SymbolRef) (d : SymData) : GlobalState :=
  { gs with symbols := fun x => if x = s then d else gs.symbols x }

def updNode (gs : GlobalState) (i : NodeId) (n : ConstLit) : GlobalState :=
  { gs with nodes := fun x => if x = i then n else gs.nodes x }

/-! ## Resolution primitive (`resolveLhs`, `resolveConstant`) -/

/-- The nesting-chain walk inside `ResolveConstantsWalk::resolveLhs`:
try a direct `findMember` on each scope, nearest first. -/
def walkFind (gs : GlobalState) : List SymbolRef → NameRef → SymbolRef
  | [], _ => noSymbol
  | s :: rest, nm =>
    let lookup := (gs.symbols s).members nm
    if symExists lookup then lookup else walkFind gs rest nm

/-- Mirrors `ResolveConstantsWalk::resolveLhs` (resolver.cc:142-152).  The
nesting chain is a list from innermost scope to root; the chain built by
the walk always ends at `root`, so it is non-empty whenever this runs. -/
def resolveLhs (gs : GlobalState) (nesting : List SymbolRef) (nm : NameRef) : SymbolRef :=
  let w := walkFind gs nesting nm
  if symExists w then w
  else gs.findMemberTransitive (nesting.headD noSymbol) nm

/-- Mirrors `isAlreadyResolved` applied to a symbol: a type-alias symbol
counts as resolved only once its `resultType` is populated. -/
def isAlreadyResolvedSym (gs : GlobalState) (sym : SymbolRef) : Bool :=
  if symExists sym then
    if (gs.symbols sym).isTypeAlias then (gs.symbols sym).resultType.isSome
    else true
  else false

/-- Mirrors `ResolveConstantsWalk::isAlreadyResolved` (resolver.cc:154-165). -/
def isAlreadyResolved (gs : GlobalState) (c : ConstLit) : Bool :=
  isAlreadyResolvedSym gs c.symbol

mutual
/-- Mirrors `ResolveConstantsWalk::isFullyResolved` (resolver.cc:178-185):
every `ConstantLit` inside the expression passes `isAlreadyResolved`. -/
def isFullyResolved (gs : GlobalState) : Expr → Bool
  | .emptyTree => true
  | .constLit i => isAlreadyResolved gs (gs.nodes i)
  | .resolvedLit s => isAlreadyResolvedSym gs s
  | .send r _ args => isFullyResolved gs r && allFullyResolved gs args
  | .selfRef => true
  | .otherE => true

def allFullyResolved (gs : GlobalState) : List Expr → Bool
  | [] => true
  | e :: es => isFullyResolved gs e && allFullyResolved gs es
end

/-- Mirrors `ResolveConstantsWalk::resolveConstant` (resolver.cc:187-215). -/
def resolveConstant (gs : GlobalState) (nesting : List SymbolRef)
    (c : UnresolvedLit) : GlobalState × SymbolRef :=
  match c.scope with
  | .emptyTree => (gs, resolveLhs gs nesting c.cnst)
  | .constLit i =>
    let sym := (gs.nodes i).symbol
    if symExists sym && (gs.symbols sym).isTypeAlias then
      (gs.addError errConstantInTypeAlias c.loc [], untypedSym)
    else if !symExists sym then (gs, noSymbol)
    else (gs, (gs.symbols (gs.dealiasF sym)).members c.cnst)
  | .resolvedLit sym =>
    if symExists sym && (gs.symbols sym).isTypeAlias then
      (gs.addError errConstantInTypeAlias c.loc [], untypedSym)
    else if !symExists sym then (gs, noSymbol)
    else (gs, (gs.symbols (gs.dealiasF sym)).members c.cnst)
  | .send _ _ _ => (gs.addError errDynamicConstant c.loc [], untypedSym)
  | .selfRef => (gs.addError errDynamicConstant c.loc [], untypedSym)
  | .otherE => (gs.addError errDynamicConstant c.loc [], untypedSym)

/-! ## Pending-work items and their resolution -/

/-- Mirrors `ResolutionItem`: the nesting chain at the use site plus a
pointer to the output `ConstantLit` node. -/
structure ResolutionItem where
  scope : List SymbolRef
  out : NodeId
deriving DecidableEq, Repr

/-- Mirrors `AncestorResolutionItem`. -/
structure AncestorItem where
  ancestor : NodeId
  klass : SymbolRef
  isSuperclass : Bool
deriving DecidableEq, Repr

/-- Mirrors `ClassAliasResolutionItem`. -/
structure ClassAliasItem where
  lhs : SymbolRef
  rhs : NodeId
deriving DecidableEq, Repr

/-- Mirrors `TypeAliasResolutionItem`. -/
structure TypeAliasItem where
  lhs : SymbolRef
  rhs : Expr

/-- Mirrors `ResolveConstantsWalk::resolveJob` (resolver.cc:281-301).
Returns the updated state and whether the job completed. -/
def resolveJob (gs : GlobalState) (job : ResolutionItem) : GlobalState × Bool :=
  let outN := gs.nodes job.out
  if isAlreadyResolved gs outN then (gs, true)
  else
    match outN.original with
    | none => (gs, false)
    | some orig =>
      let r := resolveConstant gs job.scope orig
      let gs1 := r.1
      let resolved := r.2
      if !symExists resolved then (gs1, false)
      else if (gs1.symbols resolved).isTypeAlias then
        if (gs1.symbols resolved).resultType.isSome then
          (updNode gs1 job.out { outN with symbol := resolved }, true)
        else (gs1, false)
      else (updNode gs1 job.out { outN with symbol := resolved }, true)

/-- The scope chosen by `constantResolutionFailed` for diagnostics
(resolver.cc:236-243): the dealiased already-bound symbol if any, else the
dealiased symbol of a constant scope prefix, else the innermost nesting
scope. -/
def bestKnownScope (gs : GlobalState) (job : ResolutionItem)
    (orig : UnresolvedLit) : SymbolRef :=
  if symExists (gs.nodes job.out).symbol then gs.dealiasF (gs.nodes job.out).symbol
  else
    match orig.scope with
    | .constLit i => gs.dealiasF ((gs.nodes i).symbol)
    | .resolvedLit s => gs.dealiasF s
    | _ => job.scope.headD noSymbol

/-- The fuzzy-match suggestion list attached to a `StubConstant` error
(resolver.cc:250-268): none for the autogen special case or a non-class
scope, else the fuzzy matches truncated to at most three. -/
def failSuggestions (gs : GlobalState) (scope0 : SymbolRef) (cnst : NameRef)
    (customAutogenError : Bool) : List SymbolRef :=
  if customAutogenError then []
  else if (gs.symbols scope0).isClass then
    let s := gs.fuzzy scope0 cnst
    if s.length > 3 then s.take 3 else s
  else []

/-- Mirrors `ResolveConstantsWalk::constantResolutionFailed`
(resolver.cc:218-279).  The `ENFORCE(!resolved.exists())` debug assertion
is modelled as a no-op, as in release builds. -/
def constantResolutionFailed (gs : GlobalState) (job : ResolutionItem) : GlobalState :=
  match (gs.nodes job.out).original with
  | none => gs
  | some orig =>
    let r := resolveConstant gs job.scope orig
    let gs1 := r.1
    let resolved := r.2
    if symExists resolved && (gs1.symbols resolved).isTypeAlias then
      let gs2 :=
        if (gs1.symbols resolved).resultType.isSome then gs1
        else
          let gsE := gs1.addError errRecursiveTypeAlias (gs1.symbols resolved).symLoc []
          updSym gsE resolved
            { gsE.symbols resolved with resultType := some (Ty.untypedBlame resolved) }
      updNode gs2 job.out { gs2.nodes job.out with symbol := resolved }
    else
      let scope0 := bestKnownScope gs1 job orig
      let customAutogenError := orig.cnst == (gs1.symbols subclassesSym).name
      let gs2 :=
        if scope0 != stubModuleSym || customAutogenError then
          gs1.addError errStubConstant orig.loc
            (failSuggestions gs1 scope0 orig.cnst customAutogenError)
        else gs1
      let scope1 := if scope0 == stubModuleSym then noSymbol else scope0
      updNode gs2 job.out
        { gs2.nodes job.out with symbol := stubModuleSym, resolutionScope := scope1 }

/-- Mirrors `ResolveConstantsWalk::stubSymbolForAncestor` (resolver.cc:363-369). -/
def stubSymbolForAncestor (item : AncestorItem) : SymbolRef :=
  if item.isSuperclass then stubSuperClassSym else stubMixinSym

/-- The type-alias step of `resolveAncestorJob` on the final pass
(resolver.cc:377-388): error and stub for a type alias, dealias
otherwise. -/
def ancestorTypeAliasStage (gs : GlobalState) (job : AncestorItem) :
    GlobalState × SymbolRef :=
  if (gs.symbols ((gs.nodes job.ancestor).symbol)).isTypeAlias then
    (gs.addError errDynamicSuperclass (gs.nodes job.ancestor).loc [],
      stubSymbolForAncestor job)
  else (gs, gs.dealiasF ((gs.nodes job.ancestor).symbol))

/-- The not-a-class step of `resolveAncestorJob` on the final pass
(resolver.cc:390-398). -/
def ancestorClassStage (gs : GlobalState) (job : AncestorItem)
    (resolved : SymbolRef) : GlobalState × SymbolRef :=
  if !(gs.symbols resolved).isClass then
    (gs.addError errDynamicSuperclass (gs.nodes job.ancestor).loc [],
      stubSymbolForAncestor job)
  else (gs, resolved)

/-- The circularity checks of `resolveAncestorJob` (resolver.cc:400-414). -/
def ancestorCircularStage (gs : GlobalState) (job : AncestorItem)
    (resolved : SymbolRef) : GlobalState × SymbolRef :=
  if resolved == job.klass then
    (gs.addError errCircularDependency (gs.nodes job.ancestor).loc [],
      stubSymbolForAncestor job)
  else if gs.derivesFromF resolved job.klass then
    (gs.addError errCircularDependency (gs.nodes job.ancestor).loc [],
      stubSymbolForAncestor job)
  else (gs, resolved)

/-- The write-back step of `resolveAncestorJob` (resolver.cc:416-431):
set the superclass (unless it conflicts) or append to the mixins. -/
def ancestorWriteStage (gs : GlobalState) (job : AncestorItem)
    (resolved : SymbolRef) : GlobalState :=
  if job.isSuperclass then
    if resolved == todoSym then gs
    else if !symExists (gs.symbols job.klass).superClass
        || (gs.symbols job.klass).superClass == todoSym
        || (gs.symbols job.klass).superClass == resolved then
      updSym gs job.klass { gs.symbols job.klass with superClass := resolved }
    else gs.addError errRedefinitionOfParents (gs.nodes job.ancestor).loc []
  else
    updSym gs job.klass
      { gs.symbols job.klass with
          mixins := (gs.symbols job.klass).mixins ++ [resolved] }

/-- Mirrors `ResolveConstantsWalk::resolveAncestorJob` (resolver.cc:371-434). -/
def resolveAncestorJob (gs : GlobalState) (job : AncestorItem)
    (lastRun : Bool) : GlobalState × Bool :=
  if !symExists ((gs.nodes job.ancestor).symbol) then (gs, false)
  else if (gs.symbols ((gs.nodes job.ancestor).symbol)).isTypeAlias && !lastRun then
    (gs, false)
  else
    let s1 := ancestorTypeAliasStage gs job
    if !(s1.1.symbols s1.2).isClass && !lastRun then (s1.1, false)
    else
      let s2 := ancestorClassStage s1.1 job s1.2
      let s3 := ancestorCircularStage s2.1 job s2.2
      (ancestorWriteStage s3.1 job s3.2, true)

/-- Mirrors `ResolveConstantsWalk::tryRegisterSealedSubclass`
(resolver.cc:436-448). -/
def tryRegisterSealedSubclass (gs : GlobalState) (job : AncestorItem) : GlobalState :=
  let ancestorSym := gs.dealiasF ((gs.nodes job.ancestor).symbol)
  if !(gs.symbols ancestorSym).isClassSealed then gs
  else
    updSym gs ancestorSym
      { gs.symbols ancestorSym with
          sealedSubs := (gs.symbols ancestorSym).sealedSubs ++ [job.klass] }

/-- The enclosing-generic-class search at the top of
`resolveTypeAliasJob` (resolver.cc:304-313), walking the owner chain until
`root`.  The walk is fuel-bounded; the C++ loop relies on the external
invariant that owner chains reach `root`. -/
def findEnclosingTypeMember (gs : GlobalState) : Nat → SymbolRef → SymbolRef
  | 0, _ => noSymbol
  | fuel + 1, enclosingClass =>
    if enclosingClass == rootSym then noSymbol
    else
      match (gs.symbols enclosingClass).typeMembers with
      | [] => findEnclosingTypeMember gs fuel
          (gs.enclosingClassF ((gs.symbols enclosingClass).owner))
      | tm :: _ => tm

/-- Mirrors `ResolveConstantsWalk::resolveTypeAliasJob`
(resolver.cc:303-332).  Invoking the external type-syntax service is
modelled by `getResultTypeF` plus an entry on the `tsCalls` trace. -/
def resolveTypeAliasJob (gs : GlobalState) (job : TypeAliasItem) : GlobalState × Bool :=
  let enclosingTypeMember :=
    findEnclosingTypeMember gs gs.searchFuel (gs.enclosingClassF job.lhs)
  if symExists enclosingTypeMember then
    let gs1 := gs.addError errTypeAliasInGenericClass dummyLoc []
    (updSym gs1 job.lhs
      { gs1.symbols job.lhs with resultType := some (Ty.untypedBlame job.lhs) }, true)
  else if isFullyResolved gs job.rhs then
    let ty := gs.getResultTypeF job.rhs
    let gs1 := { gs with tsCalls := gs.tsCalls ++ [job.lhs] }
    (updSym gs1 job.lhs { gs1.symbols job.lhs with resultType := some ty }, true)
  else (gs, false)

/-- Mirrors `ResolveConstantsWalk::resolveClassAliasJob`
(resolver.cc:334-361). -/
def resolveClassAliasJob (gs : GlobalState) (it : ClassAliasItem) : GlobalState × Bool :=
  let rhsSym := (gs.nodes it.rhs).symbol
  if !symExists rhsSym then (gs, false)
  else if (gs.symbols rhsSym).isTypeAlias then
    let gs1 := gs.addError errReassignsTypeAlias (gs.nodes it.rhs).loc []
    (updSym gs1 it.lhs
      { gs1.symbols it.lhs with resultType := some Ty.untypedUntracked }, true)
  else if gs.dealiasF rhsSym != it.lhs then
    (updSym gs it.lhs
      { gs.symbols it.lhs with resultType := some (Ty.aliasTy rhsSym) }, true)
  else
    let gs1 := gs.addError errRecursiveClassAlias (gs.symbols it.lhs).symLoc []
    (updSym gs1 it.lhs
      { gs1.symbols it.lhs with resultType := some Ty.untypedUntracked }, true)

/-! ## The serial fixpoint loop (`resolveConstants`, resolver.cc:641-822) -/

/-- The four pending-work lists of the fixpoint, after the parallel
pre-walk results have been merged. -/
structure FixpointState where
  gs : GlobalState
  todo : List ResolutionItem
  todoAncestors : List AncestorItem
  todoClassAliases : List ClassAliasItem
  todoTypeAliases : List TypeAliasItem

/-- One `remove_if` sweep over the ancestor list (resolver.cc:718-735):
attempt each job in order, register sealed subclasses for the resolved
ones, keep the unresolved ones in order.  Each attempt is recorded on the
instrumentation trace. -/
def runAncestors (gs0 : GlobalState) (jobs : List AncestorItem) :
    GlobalState × List AncestorItem :=
  jobs.foldl
    (fun acc job =>
      let gs := { acc.1 with attempts := acc.1.attempts ++ [JobKind.ancestorK] }
      let r := resolveAncestorJob gs job false
      if r.2 then (tryRegisterSealedSubclass r.1 job, acc.2)
      else (r.1, acc.2 ++ [job]))
    (gs0, [])

/-- One `remove_if` sweep over a generic work list, attempting each job in
order and keeping the unresolved ones in order. -/
def runList {J : Type} (k : JobKind) (f : GlobalState → J → GlobalState × Bool)
    (gs0 : GlobalState) (jobs : List J) : GlobalState × List J :=
  jobs.foldl
    (fun acc job =>
      let gs := { acc.1 with attempts := acc.1.attempts ++ [k] }
      let r := f gs job
      if r.2 then (r.1, acc.2) else (r.1, acc.2 ++ [job]))
    (gs0, [])

/-- One iteration of the fixpoint loop body (resolver.cc:716-769):
ancestors first, then constants, then class aliases, then type aliases;
the returned flag is the `progress` accumulated across the four sweeps. -/
def fixpointIter (st : FixpointState) : FixpointState × Bool :=
  let a := runAncestors st.gs st.todoAncestors
  let p1 := a.2.length != st.todoAncestors.length
  let c := runList JobKind.constantK resolveJob a.1 st.todo
  let p2 := c.2.length != st.todo.length
  let ca := runList JobKind.classAliasK resolveClassAliasJob c.1 st.todoClassAliases
  let p3 := ca.2.length != st.todoClassAliases.length
  let ta := runList JobKind.typeAliasK resolveTypeAliasJob ca.1 st.todoTypeAliases
  let p4 := ta.2.length != st.todoTypeAliases.length
  (⟨ta.1, c.2, a.2, ca.2, ta.2⟩, p1 || p2 || p3 || p4)

/-- The loop condition of resolver.cc:715:
`progress && (first || !todo.empty() || !todoAncestors.empty())`. -/
def loopGuard (first progress : Bool) (st : FixpointState) : Bool :=
  progress && (first || !st.todo.isEmpty || !st.todoAncestors.isEmpty)

/-- The fixpoint loop, fuel-bounded: `none` means the fuel ran out while
the guard still held (the termination theorem shows sufficient fuel always
exists). -/
def fixpointLoop : Nat → Bool → Bool → FixpointState → Option FixpointState
  | 0, first, progress, st =>
    if loopGuard first progress st then none else some st
  | n + 1, first, progress, st =>
    if loopGuard first progress st then
      let r := fixpointIter st
      fixpointLoop n false r.2 r.1
    else some st

/-- Total number of pending jobs across the four lists. -/
def pendingCount (st : FixpointState) : Nat :=
  st.todo.length + st.todoAncestors.length + st.todoClassAliases.length
    + st.todoTypeAliases.length

/-! ## Deterministic failure reporting (resolver.cc:585-615, 776-819) -/

/-- Mirrors `ResolveConstantsWalk::constantDepth` (resolver.cc:608-615),
fuel-bounded because the scope chain chases heap pointers. -/
def constantDepth (gs : GlobalState) : Nat → NodeId → Nat
  | 0, _ => 0
  | fuel + 1, i =>
    match (gs.nodes i).original with
    | none => 0
    | some orig =>
      match orig.scope with
      | .constLit j => constantDepth gs fuel j + 1
      | _ => 0

/-- Strictness level of a location's file, `Strong` when the file does not
exist (resolver.cc:586-594). -/
def strictOf (gs : GlobalState) (l : Loc) : StrictLevel :=
  if gs.fileExistsF l.file then gs.fileStrict l.file else StrictLevel.strong

/-- Mirrors `ResolveConstantsWalk::compareLocs` (resolver.cc:585-606). -/
def compareLocs (gs : GlobalState) (lhs rhs : Loc) : Bool :=
  let left := strictOf gs lhs
  let right := strictOf gs rhs
  if left != right then right.lvl < left.lvl
  else if lhs.file != rhs.file then lhs.file < rhs.file
  else if lhs.beginPos != rhs.beginPos then lhs.beginPos < rhs.beginPos
  else lhs.endPos < rhs.endPos

/-- The constant-job comparator of resolver.cc:790-795. -/
def todoCompare (gs : GlobalState) (fuel : Nat) (lhs rhs : ResolutionItem) : Bool :=
  if (gs.nodes lhs.out).loc == (gs.nodes rhs.out).loc then
    constantDepth gs fuel lhs.out < constantDepth gs fuel rhs.out
  else compareLocs gs (gs.nodes lhs.out).loc (gs.nodes rhs.out).loc

/-- The ancestor-job comparator of resolver.cc:797-802. -/
def ancestorCompare (gs : GlobalState) (fuel : Nat) (lhs rhs : AncestorItem) : Bool :=
  if (gs.nodes lhs.ancestor).loc == (gs.nodes rhs.ancestor).loc then
    constantDepth gs fuel lhs.ancestor < constantDepth gs fuel rhs.ancestor
  else compareLocs gs (gs.nodes lhs.ancestor).loc (gs.nodes rhs.ancestor).loc

/-- The failure path run after the fixpoint loop exits with pending jobs
(resolver.cc:776-819): sort the remaining constant jobs and ancestor jobs,
then report every constant failure, then re-run every ancestor job with
`lastRun = true` (re-trying once when the first run reports failure, as the
`ENFORCE` retry does). -/
def failurePath (gs : GlobalState) (fuel : Nat) (todo : List ResolutionItem)
    (todoAncestors : List AncestorItem) : GlobalState :=
  let todoS := todo.mergeSort (todoCompare gs fuel)
  let ancS := todoAncestors.mergeSort (ancestorCompare gs fuel)
  let gs1 := todoS.foldl (fun g job => constantResolutionFailed g job) gs
  ancS.foldl
    (fun g job =>
      let r := resolveAncestorJob g job true
      if r.2 then r.1 else (resolveAncestorJob r.1 job true).1)
    gs1

/-! ## Pre-walk handling of assignments (resolver.cc:541-583) -/

/-- Model of `ast::Assign`. -/
structure AssignE where
  lhs : Expr
  rhs : Expr

/-- The pre-walk worker's mutable lists plus its nesting chain. -/
structure Walker where
  nesting : List SymbolRef
  todo : List ResolutionItem
  todoClassAliases : List ClassAliasItem
  todoTypeAliases : List TypeAliasItem

/-- Model of `ast::MK::Untyped`: a `T.untyped` send whose receiver is a
`ConstantLit` already bound to the `T` symbol. -/
def mkUntyped : Expr := Expr.send (Expr.resolvedLit tSym) untypedName []

/-- Mirrors `ResolveConstantsWalk::postTransformAssign`
(resolver.cc:541-583).  A `resolvedLit` right-hand side is treated like a
non-constant (user assignments are always walked into heap nodes). -/
def postTransformAssignRC (gs : GlobalState) (w : Walker) (asgn : AssignE) :
    GlobalState × Walker × AssignE :=
  match asgn.lhs with
  | .constLit hid =>
    let sym := (gs.nodes hid).symbol
    if !(gs.symbols sym).isStaticField then (gs, w, asgn)
    else
      match asgn.rhs with
      | .send recv fn args =>
        if fn == typeAliasName then
          if args.isEmpty then
            let gs1 := gs.addError errInvalidTypeAlias dummyLoc []
            let w1 :=
              { w with
                  todoTypeAliases := w.todoTypeAliases ++ [⟨sym, mkUntyped⟩],
                  todo := w.todo ++ [⟨w.nesting, hid⟩] }
            (gs1, w1, ⟨asgn.lhs, Expr.send recv fn [mkUntyped]⟩)
          else
            let w1 :=
              { w with
                  todoTypeAliases := w.todoTypeAliases ++ [⟨sym, args.headD Expr.otherE⟩],
                  todo := w.todo ++ [⟨w.nesting, hid⟩] }
            (gs, w1, asgn)
        else (gs, w, asgn)
      | .constLit rid =>
        (gs, { w with todoClassAliases := w.todoClassAliases ++ [⟨sym, rid⟩] }, asgn)
      | _ => (gs, w, asgn)
  | _ => (gs, w, asgn)

/-! ## ResolveTypeParamsWalk (resolver.cc:825-938) -/

/-- Mirrors `core::Names::fixed()`. -/
def fixedName : NameRef := 200
/-- Mirrors `core::Names::lower()`. -/
def lowerName : NameRef := 201
/-- Mirrors `core::Names::upper()`. -/
def upperName : NameRef := 202

/-- Expressions the type-member walk inspects: symbol literals (hash
keys), other literals, hashes, anything else. -/
inductive TPExpr where
  | symLit (nm : NameRef)
  | nonSymLit
  | hashE (keys : List TPExpr) (values : List TPExpr)
  | otherTP

/-- Symbol payload for the type-member walk. -/
structure TPSym where
  isTypeAlias : Bool
  isTypeMember : Bool
  owner : SymbolRef
  superClass : SymbolRef
  members : NameRef → SymbolRef
  name : NameRef

/-- State of the type-member walk: the symbol table, the per-type-member
`LambdaParam` bounds (`resultType`), the external subtyping oracle and
type-syntax service, and the error queue (codes in emission order). -/
structure TPState where
  symbols : SymbolRef → TPSym
  bounds : SymbolRef → Ty × Ty
  isSubTypeF : Ty → Ty → Bool
  getResultTypeTP : TPExpr → Ty
  errors : List Nat

/-- Model of the `typeMember` / `typeTemplate` send on the right-hand side
of a type-member assignment: just its argument list. -/
structure TPSend where
  args : List TPExpr

/-- The optional-hash extraction of resolver.cc:867-872: the single
argument, or the second of two. -/
def hashArgOf (send : TPSend) : Option (List TPExpr × List TPExpr) :=
  if send.args.length == 1 then
    match send.args.headD TPExpr.otherTP with
    | .hashE ks vs => some (ks, vs)
    | _ => none
  else if send.args.length == 2 then
    match (send.args.drop 1).headD TPExpr.otherTP with
    | .hashE ks vs => some (ks, vs)
    | _ => none
  else none

/-- The key loop of resolver.cc:874-904: for each symbol-literal key,
convert the value and update the bounds (`fixed` sets both, `lower` and
`upper` the respective bound; unknown keys fall through the switch). -/
def applyHashKeys (st : TPState) (ks vs : List TPExpr) (b : Ty × Ty) : Ty × Ty :=
  (ks.zip vs).foldl
    (fun acc kv =>
      match kv.1 with
      | .symLit nm =>
        let resTy := st.getResultTypeTP kv.2
        if nm == fixedName then (resTy, resTy)
        else if nm == lowerName then (resTy, acc.2)
        else if nm == upperName then (acc.1, resTy)
        else acc
      | _ => acc)
    b

def updBounds (st : TPState) (s : SymbolRef) (b : Ty × Ty) : TPState :=
  { st with bounds := fun x => if x = s then b else st.bounds x }

def tpError (st : TPState) (code : Nat) : TPState :=
  { st with errors := st.errors ++ [code] }

/-- The parent-member lookup of resolver.cc:853: the superclass of the
type member's owner, searched for a direct member of the same name.  (The
symbol table is not mutated between this lookup and its uses, so it is
read off the walk's input state.) -/
def tpParentMemberOf (st : TPState) (lhsSym : SymbolRef) : SymbolRef :=
  (st.symbols (st.symbols (st.symbols lhsSym).owner).superClass).members
    (st.symbols lhsSym).name

/-- The parent-member-is-not-a-type-member check of resolver.cc:854-862. -/
def tpParentNonTMErr (st : TPState) (pm : SymbolRef) : TPState :=
  if symExists pm && !(st.symbols pm).isTypeMember then
    tpError st errParentTypeBoundsMismatch
  else st

/-- The parent-bounds validation of resolver.cc:906-923: when the parent
member is a type member, require its lower bound below the new lower bound
and the new upper bound below its upper bound, reporting a mismatch error
for each violated direction. -/
def tpParentBoundsCheck (st : TPState) (pm : SymbolRef) (nb : Ty × Ty) : TPState :=
  if symExists pm && (st.symbols pm).isTypeMember then
    let pb := st.bounds pm
    let stA :=
      if !st.isSubTypeF pb.1 nb.1 then tpError st errParentTypeBoundsMismatch
      else st
    if !stA.isSubTypeF nb.2 pb.2 then tpError stA errParentTypeBoundsMismatch
    else stA
  else st

/-- The lower-below-upper validation of resolver.cc:925-933. -/
def tpLowerUpperCheck (st : TPState) (nb : Ty × Ty) : TPState :=
  if !st.isSubTypeF nb.1 nb.2 then tpError st errInvalidTypeMemberBounds
  else st

/-- Mirrors `ResolveTypeParamsWalk::postTransformAssign`
(resolver.cc:827-937) for an assignment whose left-hand side is bound to
`lhsSym` and whose right-hand side is the given send.  Bounds are read and
written through the `bounds` map, mirroring the in-place `LambdaParam`
mutation of the C++. -/
def postTransformAssignTP (st : TPState) (lhsSym : SymbolRef) (send : TPSend) : TPState :=
  let data := st.symbols lhsSym
  if data.isTypeAlias then st
  else if data.isTypeMember then
    let st0 := updBounds st lhsSym (Ty.bottomTy, Ty.topTy)
    let parentMember := tpParentMemberOf st lhsSym
    let st1 := tpParentNonTMErr st0 parentMember
    let newBounds :=
      match hashArgOf send with
      | some kv => applyHashKeys st1 kv.1 kv.2 (Ty.bottomTy, Ty.topTy)
      | none => (Ty.bottomTy, Ty.topTy)
    let st2 := updBounds st1 lhsSym newBounds
    let st3 := tpParentBoundsCheck st2 parentMember newBounds
    tpLowerUpperCheck st3 newBounds
  else st

/-! ## ResolveSignaturesWalk: sig application to a method definition
(resolver.cc:1252-1321) -/

/-- The part of a buffered, parsed `sig` that overload elaboration
consumes: its location and the parameter names its `params(...)` listed
(the `argTypes` of the `ParsedSig` returned by the external
`TypeSyntax::parseSig`). -/
structure SigInfo where
  sigLoc : Loc
  argNames : List NameRef
deriving DecidableEq, Repr

/-- The part of a `MethodDef` that overload elaboration consumes. -/
structure MDefInfo where
  symbol : SymbolRef
  symName : NameRef
  args : List NameRef
  file : FileRef
deriving DecidableEq, Repr

/-- Observable effects of sig application, recorded in order.
`fillInfo` stands for the call to `fillInInfoFromSig`, whose internals no
claim here depends on. -/
inductive SigEvent where
  | mangleRename (sym : SymbolRef) (nm : NameRef)
  | enterOverload (origSym : SymbolRef) (nm : NameRef) (idx : Nat)
      (argsToKeep : List Nat) (newSym : SymbolRef)
  | setOverloaded (sym : SymbolRef)
  | fillInfo (sym : SymbolRef) (idx : Nat)
deriving DecidableEq, Repr

/-- State of the signature walk fragment: the overload-permission
predicate on files, a fresh-symbol counter for `enterNewMethodOverload`,
and the event log. -/
structure SigState where
  permitOverloadDefinitions : FileRef → Bool
  freshId : Nat
  events : List SigEvent

/-- The `argsToKeep` computation of resolver.cc:1290-1302: the positions
of the method's arguments whose name appears among the sig's parameters. -/
def argsToKeepFor (mdef : MDefInfo) (sig : SigInfo) : List Nat :=
  mdef.args.enum.foldl
    (fun acc p => if p.2 ∈ sig.argNames then acc ++ [p.1] else acc) []

/-- One pass of the sig loop body (resolver.cc:1281-1313) at index `idx`. -/
def processOneSig (isOverloaded : Bool) (mdef : MDefInfo) (originalName : NameRef)
    (total : Nat) (st : SigState) (idx : Nat) (sig : SigInfo) : SigState :=
  if isOverloaded then
    let keep := argsToKeepFor mdef sig
    let newSym := st.freshId
    let st1 :=
      { st with
          freshId := st.freshId + 1,
          events := st.events ++
            [SigEvent.enterOverload mdef.symbol originalName idx keep newSym] }
    let st2 :=
      if idx != total - 1 then
        { st1 with events := st1.events ++ [SigEvent.setOverloaded newSym] }
      else st1
    { st2 with events := st2.events ++ [SigEvent.fillInfo newSym idx] }
  else
    { st with events := st.events ++ [SigEvent.fillInfo mdef.symbol idx] }

/-- Mirrors the `!lastSigs.empty()` block of
`ResolveSignaturesWalk::processStatement` (resolver.cc:1252-1321),
restricted to the overload-relevant effects (the sigil check, sig parsing
for types, and default-argument injection are orthogonal to the claim
settled here). -/
def processSigs (st : SigState) (lastSigs : List SigInfo) (mdef : MDefInfo) : SigState :=
  if lastSigs.isEmpty then st
  else
    let isOverloaded :=
      decide (lastSigs.length > 1) && st.permitOverloadDefinitions mdef.file
    let originalName := mdef.symName
    let st1 :=
      if isOverloaded then
        { st with events := st.events ++ [SigEvent.mangleRename mdef.symbol originalName] }
      else st
    lastSigs.enum.foldl
      (fun s p => processOneSig isOverloaded mdef originalName lastSigs.length s p.1 p.2)
      st1

/-! ## Spec-side formulations used for refinement comparison -/

/-- The loop condition as the specification words it: progress was made
and (first iteration or any of the four pending work lists is
non-empty). -/
def loopGuardSpec (first progress : Bool) (st : FixpointState) : Bool :=
  progress && (first || !st.todo.isEmpty || !st.todoAncestors.isEmpty ||
    !st.todoClassAliases.isEmpty || !st.todoTypeAliases.isEmpty)

/-! ## Helper lemmas: the job functions never touch the attempt trace -/

lemma resolveConstant_attempts (gs : GlobalState) (nesting : List SymbolRef)
    (c : UnresolvedLit) : ((resolveConstant gs nesting c).1).attempts = gs.attempts := by
  rcases c with ⟨sc, nm, lc⟩
  cases sc <;> simp only [resolveConstant, GlobalState.addError] <;> split_ifs <;> rfl

lemma addError_attempts (gs : GlobalState) (c : Nat) (l : Loc) (s : List SymbolRef) :
    (gs.addError c l s).attempts = gs.attempts := rfl

lemma updSym_attempts (gs : GlobalState) (s : SymbolRef) (d : SymData) :
    (updSym gs s d).attempts = gs.attempts := rfl

lemma updNode_attempts (gs : GlobalState) (i : NodeId) (n : ConstLit) :
    (updNode gs i n).attempts = gs.attempts := rfl

lemma resolveJob_attempts (gs : GlobalState) (job : ResolutionItem) :
    ((resolveJob gs job).1).attempts = gs.attempts := by
  simp only [resolveJob]
  split
  · rfl
  · split
    · rfl
    · split_ifs <;>
        simp only [updNode_attempts, resolveConstant_attempts]

lemma ancestorTypeAliasStage_attempts (gs : GlobalState) (job : AncestorItem) :
    ((ancestorTypeAliasStage gs job).1).attempts = gs.attempts := by
  unfold ancestorTypeAliasStage
  split_ifs <;> simp only [addError_attempts]

lemma ancestorClassStage_attempts (gs : GlobalState) (job : AncestorItem)
    (resolved : SymbolRef) : ((ancestorClassStage gs job resolved).1).attempts = gs.attempts := by
  unfold ancestorClassStage
  split_ifs <;> simp only [addError_attempts]

lemma ancestorCircularStage_attempts (gs : GlobalState) (job : AncestorItem)
    (resolved : SymbolRef) :
    ((ancestorCircularStage gs job resolved).1).attempts = gs.attempts := by
  unfold ancestorCircularStage
  split_ifs <;> simp only [addError_attempts]

lemma ancestorWriteStage_attempts (gs : GlobalState) (job : AncestorItem)
    (resolved : SymbolRef) :
    (ancestorWriteStage gs job resolved).attempts = gs.attempts := by
  unfold ancestorWriteStage
  split_ifs <;> simp only [addError_attempts, updSym_attempts]

lemma resolveAncestorJob_attempts (gs : GlobalState) (job : AncestorItem)
    (lastRun : Bool) : ((resolveAncestorJob gs job lastRun).1).attempts = gs.attempts := by
  simp only [resolveAncestorJob]
  split_ifs <;>
    simp only [ancestorWriteStage_attempts, ancestorCircularStage_attempts,
      ancestorClassStage_attempts, ancestorTypeAliasStage_attempts]

lemma tryRegisterSealedSubclass_attempts (gs : GlobalState) (job : AncestorItem) :
    ((tryRegisterSealedSubclass gs job)).attempts = gs.attempts := by
  simp only [tryRegisterSealedSubclass]
  split_ifs <;> rfl

lemma resolveClassAliasJob_attempts (gs : GlobalState) (it : ClassAliasItem) :
    ((resolveClassAliasJob gs it).1).attempts = gs.attempts := by
  simp only [resolveClassAliasJob]
  split_ifs <;> rfl

lemma resolveTypeAliasJob_attempts (gs : GlobalState) (job : TypeAliasItem) :
    ((resolveTypeAliasJob gs job).1).attempts = gs.attempts := by
  simp only [resolveTypeAliasJob]
  split_ifs <;> rfl

/-! ## Helper lemmas: trace and length behaviour of the sweeps -/

lemma runList_go_attempts {J : Type} (k : JobKind) (f : GlobalState → J → GlobalState × Bool)
    (hf : ∀ gs j, ((f gs j).1).attempts = gs.attempts) :
    ∀ (jobs : List J) (p : GlobalState × List J),
      ((jobs.foldl
        (fun acc job =>
          let gs := { acc.1 with attempts := acc.1.attempts ++ [k] }
          let r := f gs job
          if r.2 then (r.1, acc.2) else (r.1, acc.2 ++ [job])) p).1).attempts
      = p.1.attempts ++ List.replicate jobs.length k := by
  intro jobs
  induction jobs with
  | nil => intro p; simp
  | cons j js ih =>
    intro p
    rw [List.foldl_cons]
    rw [ih]
    have hstep :
        (((fun (acc : GlobalState × List J) job =>
          let gs := { acc.1 with attempts := acc.1.attempts ++ [k] }
          let r := f gs job
          if r.2 then (r.1, acc.2) else (r.1, acc.2 ++ [job])) p j).1).attempts
        = p.1.attempts ++ [k] := by
      dsimp only
      split_ifs <;> rw [hf]
    rw [hstep, List.length_cons, List.replicate_succ, List.append_assoc]
    rfl

lemma runList_attempts {J : Type} (k : JobKind) (f : GlobalState → J → GlobalState × Bool)
    (hf : ∀ gs j, ((f gs j).1).attempts = gs.attempts)
    (gs0 : GlobalState) (jobs : List J) :
    ((runList k f gs0 jobs).1).attempts = gs0.attempts ++ List.replicate jobs.length k := by
  unfold runList
  exact runList_go_attempts k f hf jobs (gs0, [])

lemma runAncestors_go_attempts :
    ∀ (jobs : List AncestorItem) (p : GlobalState × List AncestorItem),
      ((jobs.foldl
        (fun acc job =>
          let gs := { acc.1 with attempts := acc.1.attempts ++ [JobKind.ancestorK] }
          let r := resolveAncestorJob gs job false
          if r.2 then (tryRegisterSealedSubclass r.1 job, acc.2)
          else (r.1, acc.2 ++ [job])) p).1).attempts
      = p.1.attempts ++ List.replicate jobs.length JobKind.ancestorK := by
  intro jobs
  induction jobs with
  | nil => intro p; simp
  | cons j js ih =>
    intro p
    rw [List.foldl_cons, ih]
    have hstep :
        (((fun (acc : GlobalState × List AncestorItem) job =>
          let gs := { acc.1 with attempts := acc.1.attempts ++ [JobKind.ancestorK] }
          let r := resolveAncestorJob gs job false
          if r.2 then (tryRegisterSealedSubclass r.1 job, acc.2)
          else (r.1, acc.2 ++ [job])) p j).1).attempts
        = p.1.attempts ++ [JobKind.ancestorK] := by
      dsimp only
      split_ifs <;>
        simp only [tryRegisterSealedSubclass_attempts, resolveAncestorJob_attempts]
    rw [hstep, List.length_cons, List.replicate_succ, List.append_assoc]
    rfl

lemma runAncestors_attempts (gs0 : GlobalState) (jobs : List AncestorItem) :
    ((runAncestors gs0 jobs).1).attempts
      = gs0.attempts ++ List.replicate jobs.length JobKind.ancestorK := by
  unfold runAncestors
  exact runAncestors_go_attempts jobs (gs0, [])

lemma runList_go_length {J : Type} (k : JobKind) (f : GlobalState → J → GlobalState × Bool) :
    ∀ (jobs : List J) (p : GlobalState × List J),
      ((jobs.foldl
        (fun acc job =>
          let gs := { acc.1 with attempts := acc.1.attempts ++ [k] }
          let r := f gs job
          if r.2 then (r.1, acc.2) else (r.1, acc.2 ++ [job])) p).2).length
      ≤ p.2.length + jobs.length := by
  intro jobs
  induction jobs with
  | nil => intro p; simp
  | cons j js ih =>
    intro p
    rw [List.foldl_cons]
    refine le_trans (ih _) ?_
    simp only [List.length_cons]
    split_ifs <;> simp <;> omega

lemma runList_length {J : Type} (k : JobKind) (f : GlobalState → J → GlobalState × Bool)
    (gs0 : GlobalState) (jobs : List J) :
    ((runList k f gs0 jobs).2).length ≤ jobs.length := by
  unfold runList
  have := runList_go_length k f jobs (gs0, [])
  simpa using this

lemma runAncestors_go_length :
    ∀ (jobs : List AncestorItem) (p : GlobalState × List AncestorItem),
      ((jobs.foldl
        (fun acc job =>
          let gs := { acc.1 with attempts := acc.1.attempts ++ [JobKind.ancestorK] }
          let r := resolveAncestorJob gs job false
          if r.2 then (tryRegisterSealedSubclass r.1 job, acc.2)
          else (r.1, acc.2 ++ [job])) p).2).length
      ≤ p.2.length + jobs.length := by
  intro jobs
  induction jobs with
  | nil => intro p; simp
  | cons j js ih =>
    intro p
    rw [List.foldl_cons]
    refine le_trans (ih _) ?_
    simp only [List.length_cons]
    split_ifs <;> simp <;> omega

lemma runAncestors_length (gs0 : GlobalState) (jobs : List AncestorItem) :
    ((runAncestors gs0 jobs).2).length ≤ jobs.length := by
  unfold runAncestors
  have := runAncestors_go_length jobs (gs0, [])
  simpa using this

/-! ## Shrinking and termination of the fixpoint loop -/

lemma fixpointIter_pending_le (st : FixpointState) :
    pendingCount (fixpointIter st).1 ≤ pendingCount st := by
  simp only [fixpointIter, pendingCount]
  have h1 := runAncestors_length st.gs st.todoAncestors
  have h2 := runList_length JobKind.constantK resolveJob
      (runAncestors st.gs st.todoAncestors).1 st.todo
  have h3 := runList_length JobKind.classAliasK resolveClassAliasJob
      (runList JobKind.constantK resolveJob (runAncestors st.gs st.todoAncestors).1 st.todo).1
      st.todoClassAliases
  have h4 := runList_length JobKind.typeAliasK resolveTypeAliasJob
      (runList JobKind.classAliasK resolveClassAliasJob
        (runList JobKind.constantK resolveJob (runAncestors st.gs st.todoAncestors).1
          st.todo).1 st.todoClassAliases).1
      st.todoTypeAliases
  omega

lemma fixpointIter_progress_lt (st : FixpointState)
    (hp : (fixpointIter st).2 = true) :
    pendingCount (fixpointIter st).1 < pendingCount st := by
  have h1 := runAncestors_length st.gs st.todoAncestors
  have h2 := runList_length JobKind.constantK resolveJob
      (runAncestors st.gs st.todoAncestors).1 st.todo
  have h3 := runList_length JobKind.classAliasK resolveClassAliasJob
      (runList JobKind.constantK resolveJob (runAncestors st.gs st.todoAncestors).1 st.todo).1
      st.todoClassAliases
  have h4 := runList_length JobKind.typeAliasK resolveTypeAliasJob
      (runList JobKind.classAliasK resolveClassAliasJob
        (runList JobKind.constantK resolveJob (runAncestors st.gs st.todoAncestors).1
          st.todo).1 st.todoClassAliases).1
      st.todoTypeAliases
  simp only [fixpointIter, Bool.or_eq_true, bne_iff_ne, ne_eq] at hp
  simp only [fixpointIter, pendingCount]
  rcases hp with ((hp | hp) | hp) | hp <;> omega

lemma loopGuard_no_progress (f : Bool) (st : FixpointState) :
    loopGuard f false st = false := by
  simp [loopGuard]

lemma fixpointLoop_no_progress (n : Nat) (f : Bool) (st : FixpointState) :
    fixpointLoop (n + 1) f false st = some st := by
  simp [fixpointLoop, loopGuard]

lemma fixpointLoop_isSome :
    ∀ (N : Nat) (st : FixpointState) (f p : Bool),
      pendingCount st ≤ N → (fixpointLoop (N + 2) f p st).isSome = true := by
  intro N
  induction N using Nat.strong_induction_on with
  | _ N ih =>
    intro st f p hle
    by_cases hg : loopGuard f p st = true
    · have hstep : fixpointLoop (N + 2) f p st =
          fixpointLoop (N + 1) false (fixpointIter st).2 (fixpointIter st).1 := by
        simp [fixpointLoop, hg]
      rw [hstep]
      by_cases hp2 : (fixpointIter st).2 = true
      · have hlt := fixpointIter_progress_lt st hp2
        have hN1 : 1 ≤ N := by omega
        have hsplit : N + 1 = (N - 1) + 2 := by omega
        rw [hp2, hsplit]
        exact ih (N - 1) (by omega) (fixpointIter st).1 false true (by omega)
      · have hp2f : (fixpointIter st).2 = false := by
          cases h : (fixpointIter st).2
          · rfl
          · exact absurd h hp2
        rw [hp2f, fixpointLoop_no_progress]
        rfl
    · have hgf : loopGuard f p st = false := by
        cases h : loopGuard f p st
        · rfl
        · exact absurd h hg
      simp [fixpointLoop, hgf]

/-! ## Claim C1 -/

/-- Initial states for the loop-condition counterexample: one constant job
that resolves on the first iteration (its node is already bound to an
existing non-alias symbol), and one class-alias job that stays pending
because its right-hand-side node is unbound. -/
def gsBlank : GlobalState :=
  ⟨fun _ => blankSym, fun _ => ⟨noSymbol, noSymbol, none, dummyLoc⟩,
    fun _ _ => noSymbol, fun s => s, fun _ _ => [], fun _ _ => false,
    fun _ => Ty.miscTy 0, fun _ => rootSym, 10, fun _ => StrictLevel.tru,
    fun _ => true, [], [], []⟩

def c1Gs : GlobalState :=
  { gsBlank with
      nodes := fun i =>
        if i = 1 then ⟨9, noSymbol, none, dummyLoc⟩
        else ⟨noSymbol, noSymbol, none, dummyLoc⟩ }

def c1Start : FixpointState :=
  ⟨c1Gs, [⟨[], 1⟩], [], [⟨20, 2⟩], []⟩

/-- C1 (counterexample): after the first iteration of the loop started at
`c1Start`, progress was made and the class-alias list is still non-empty,
so the claimed condition (`progress && (first || any of the four lists
non-empty)`) demands another iteration; the loop nevertheless exits,
because the real condition consults only the constant and ancestor
lists. -/
theorem c1_loop_condition_counterexample :
    ((fixpointLoop 10 true true c1Start).elim 0 fun st => st.todoClassAliases.length) = 1 ∧
    ((fixpointLoop 10 true true c1Start).elim false fun st => loopGuardSpec false true st)
      = true ∧
    ((fixpointLoop 10 true true c1Start).elim true fun st => loopGuard false true st)
      = false := by
  refine ⟨rfl, rfl, rfl⟩

/-- C1 (amended, proved): in every iteration the pending jobs are
attempted in the order ancestor jobs, then constant jobs, then class-alias
jobs, then type-alias jobs (one attempt per pending job, shown on the
instrumentation trace); the loop repeats exactly while progress was made
in the previous iteration and (it is the first iteration or the constant
list or the ancestor list is non-empty) — the class-alias and type-alias
lists are not consulted by the loop condition. -/
theorem c1_iteration_order_and_loop_condition (st : FixpointState) (f p : Bool) (n : Nat) :
    (fixpointLoop (n + 1) f p st =
      if loopGuard f p st then
        fixpointLoop n false (fixpointIter st).2 (fixpointIter st).1
      else some st) ∧
    loopGuard f p st = (p && (f || !st.todo.isEmpty || !st.todoAncestors.isEmpty)) ∧
    (fixpointIter st).1.gs.attempts =
      st.gs.attempts
        ++ List.replicate st.todoAncestors.length JobKind.ancestorK
        ++ List.replicate st.todo.length JobKind.constantK
        ++ List.replicate st.todoClassAliases.length JobKind.classAliasK
        ++ List.replicate st.todoTypeAliases.length JobKind.typeAliasK := by
  refine ⟨rfl, rfl, ?_⟩
  simp only [fixpointIter]
  rw [runList_attempts _ _ resolveTypeAliasJob_attempts,
    runList_attempts _ _ resolveClassAliasJob_attempts,
    runList_attempts _ _ resolveJob_attempts,
    runAncestors_attempts]

/-! ## Claim C3 -/

/-- C3 (confirmed): the fixpoint loop always terminates: an iteration
never grows the total amount of pending work, an iteration that reports
progress strictly shrinks it (no job is re-enqueued), an iteration without
progress makes the loop exit at once, and fuel `pendingCount + 2` always
suffices for the loop to reach its exit condition. -/
theorem c3_fixpoint_loop_terminates (st : FixpointState) (f p : Bool) :
    (fixpointLoop (pendingCount st + 2) f p st).isSome = true ∧
    pendingCount (fixpointIter st).1 ≤ pendingCount st ∧
    (pendingCount (fixpointIter st).1 < pendingCount st ∨ (fixpointIter st).2 = false) ∧
    (∀ (st2 : FixpointState) (f2 : Bool) (n : Nat),
      fixpointLoop (n + 1) f2 false st2 = some st2) := by
  refine ⟨fixpointLoop_isSome (pendingCount st) st f p (le_refl _),
    fixpointIter_pending_le st, ?_, fun st2 f2 n => fixpointLoop_no_progress n f2 st2⟩
  cases h : (fixpointIter st).2
  · exact Or.inr rfl
  · exact Or.inl (fixpointIter_progress_lt st h)

/-! ## Claim C2 -/

lemma walkFind_eq_find (gs : GlobalState) (nm : NameRef) :
    ∀ l : List SymbolRef, walkFind gs l nm =
      (match l.find? (fun s => symExists ((gs.symbols s).members nm)) with
       | some s => (gs.symbols s).members nm
       | none => noSymbol) := by
  intro l
  induction l with
  | nil => rfl
  | cons s rest ih =>
    simp only [walkFind, List.find?_cons]
    cases h : symExists ((gs.symbols s).members nm)
    · simp only [h, Bool.false_eq_true, if_false]
      exact ih
    · simp only [h, if_pos]

/-- C2 (confirmed): for a constant whose textual scope prefix is empty,
the resolution primitive walks the nesting chain nearest-first trying a
direct `findMember` on each scope, and the result is the member found at
the first scope whose direct lookup succeeds; when every scope on the
chain misses, the result is the single inheritance-aware
`findMemberTransitive` lookup from the innermost scope (which may itself
report no symbol).  No error is emitted and the state is unchanged. -/
theorem c2_empty_scope_resolution (gs : GlobalState) (nesting : List SymbolRef)
    (c : UnresolvedLit) (hsc : c.scope = Expr.emptyTree) (hne : nesting ≠ []) :
    (resolveConstant gs nesting c).1 = gs ∧
    (resolveConstant gs nesting c).2 =
      (match nesting.find? (fun s => symExists ((gs.symbols s).members c.cnst)) with
       | some s => (gs.symbols s).members c.cnst
       | none => gs.findMemberTransitive (nesting.headD noSymbol) c.cnst) := by
  rcases c with ⟨sc, nm, lc⟩
  simp only at hsc
  subst hsc
  refine ⟨rfl, ?_⟩
  show resolveLhs gs nesting nm = _
  unfold resolveLhs
  rw [walkFind_eq_find]
  cases hf : nesting.find? (fun s => symExists ((gs.symbols s).members nm)) with
  | none =>
    simp only [symExists, noSymbol]
    rfl
  | some s =>
    have hp := List.find?_some hf
    simp only [hp, if_pos]

def c2Gs : GlobalState :=
  { gsBlank with
      symbols := fun s =>
        if s = 1 then { blankSym with members := fun nm => if nm = 30 then 77 else 0 }
        else blankSym,
      findMemberTransitive := fun s nm => if s = 10 && nm = 31 then 88 else 0 }

/-- C2 witness: a concrete run of the theorem where the innermost scope
misses and the outer scope supplies the member. -/
theorem c2_empty_scope_resolution_witness :
    (resolveConstant c2Gs [10, 1] ⟨Expr.emptyTree, 30, dummyLoc⟩).1 = c2Gs ∧
    (resolveConstant c2Gs [10, 1] ⟨Expr.emptyTree, 30, dummyLoc⟩).2 =
      (match [10, 1].find?
          (fun s => symExists ((c2Gs.symbols s).members 30)) with
       | some s => (c2Gs.symbols s).members 30
       | none => c2Gs.findMemberTransitive ([10, 1].headD noSymbol) 30) :=
  c2_empty_scope_resolution c2Gs [10, 1] ⟨Expr.emptyTree, 30, dummyLoc⟩ rfl (by simp)

/-! ## Claim C4 -/

/-- Lexicographic comparison of five-component keys. -/
def lexLess5 (a b : Nat × Nat × Nat × Nat × Nat) : Bool :=
  if a.1 != b.1 then decide (a.1 < b.1)
  else if a.2.1 != b.2.1 then decide (a.2.1 < b.2.1)
  else if a.2.2.1 != b.2.2.1 then decide (a.2.2.1 < b.2.2.1)
  else if a.2.2.2.1 != b.2.2.2.1 then decide (a.2.2.2.1 < b.2.2.2.1)
  else decide (a.2.2.2.2 < b.2.2.2.2)

/-- The sort key the specification describes: strictness level strictest
first (encoded descending as `4 - lvl`), then file id, then start offset,
then end offset, then constant nesting depth. -/
def lexKey (gs : GlobalState) (l : Loc) (depth : Nat) : Nat × Nat × Nat × Nat × Nat :=
  (4 - (strictOf gs l).lvl, l.file, l.beginPos, l.endPos, depth)

/-- The constant-job comparator as the specification words it. -/
def specTodoCompare (gs : GlobalState) (fuel : Nat) (lhs rhs : ResolutionItem) : Bool :=
  lexLess5 (lexKey gs (gs.nodes lhs.out).loc (constantDepth gs fuel lhs.out))
    (lexKey gs (gs.nodes rhs.out).loc (constantDepth gs fuel rhs.out))

/-- The ancestor-job comparator as the specification words it. -/
def specAncestorCompare (gs : GlobalState) (fuel : Nat) (lhs rhs : AncestorItem) : Bool :=
  lexLess5 (lexKey gs (gs.nodes lhs.ancestor).loc (constantDepth gs fuel lhs.ancestor))
    (lexKey gs (gs.nodes rhs.ancestor).loc (constantDepth gs fuel rhs.ancestor))

/-- The failure path with the specification's comparators substituted for
the code's. -/
def failurePathSpec (gs : GlobalState) (fuel : Nat) (todo : List ResolutionItem)
    (todoAncestors : List AncestorItem) : GlobalState :=
  let todoS := todo.mergeSort (specTodoCompare gs fuel)
  let ancS := todoAncestors.mergeSort (specAncestorCompare gs fuel)
  let gs1 := todoS.foldl (fun g job => constantResolutionFailed g job) gs
  ancS.foldl
    (fun g job =>
      let r := resolveAncestorJob g job true
      if r.2 then r.1 else (resolveAncestorJob r.1 job true).1)
    gs1

lemma StrictLevel.lvl_le_four : ∀ a : StrictLevel, a.lvl ≤ 4 := by
  intro a
  cases a <;> simp [StrictLevel.lvl]

lemma StrictLevel.lvl_inj : ∀ a b : StrictLevel, a.lvl = b.lvl → a = b := by
  intro a b
  cases a <;> cases b <;> simp [StrictLevel.lvl]

lemma codeCmp_eq_lex (gs : GlobalState) (l r : Loc) (dl dr : Nat) :
    (if l == r then decide (dl < dr) else compareLocs gs l r)
      = lexLess5 (lexKey gs l dl) (lexKey gs r dr) := by
  have h4l := StrictLevel.lvl_le_four (strictOf gs l)
  have h4r := StrictLevel.lvl_le_four (strictOf gs r)
  by_cases heq : l = r
  · subst heq
    simp [lexLess5, lexKey]
  · have hbeq : (l == r) = false := by simp [heq]
    rw [hbeq]
    simp only [Bool.false_eq_true, if_false]
    by_cases hstrict : strictOf gs l = strictOf gs r
    · have hkey1 : 4 - (strictOf gs l).lvl = 4 - (strictOf gs r).lvl := by rw [hstrict]
      by_cases hfile : l.file = r.file
      · by_cases hbegin : l.beginPos = r.beginPos
        · have hend : l.endPos ≠ r.endPos := by
            intro he
            exact heq (by cases l; cases r; simp_all)
          simp only [compareLocs, lexLess5, lexKey, hstrict, hkey1, hfile, hbegin,
            bne_self_eq_false, Bool.false_eq_true, if_false]
          have : (l.endPos != r.endPos) = true := by simp [hend]
          simp [this, hend]
        · simp only [compareLocs, lexLess5, lexKey, hstrict, hkey1, hfile,
            bne_self_eq_false, Bool.false_eq_true, if_false]
          have : (l.beginPos != r.beginPos) = true := by simp [hbegin]
          simp [this]
      · simp only [compareLocs, lexLess5, lexKey, hkey1, hstrict, bne_self_eq_false,
          Bool.false_eq_true, if_false]
        have : (l.file != r.file) = true := by simp [hfile]
        simp [this]
    · have hlvl : (strictOf gs l).lvl ≠ (strictOf gs r).lvl := by
        intro he
        exact hstrict (StrictLevel.lvl_inj _ _ he)
      have hkey1 : 4 - (strictOf gs l).lvl ≠ 4 - (strictOf gs r).lvl := by omega
      simp only [compareLocs, lexLess5, lexKey]
      have hb1 : (strictOf gs l != strictOf gs r) = true := by simp [hstrict]
      have hb2 : ((4 - (strictOf gs l).lvl : Nat) != 4 - (strictOf gs r).lvl) = true := by
        simp [hkey1]
      simp only [hb1, hb2, if_pos]
      simp only [decide_eq_decide]
      omega

lemma todoCompare_eq_spec (gs : GlobalState) (fuel : Nat) (a b : ResolutionItem) :
    todoCompare gs fuel a b = specTodoCompare gs fuel a b := by
  unfold todoCompare specTodoCompare
  exact codeCmp_eq_lex gs _ _ _ _

lemma ancestorCompare_eq_spec (gs : GlobalState) (fuel : Nat) (a b : AncestorItem) :
    ancestorCompare gs fuel a b = specAncestorCompare gs fuel a b := by
  unfold ancestorCompare specAncestorCompare
  exact codeCmp_eq_lex gs _ _ _ _

/-- C4 (confirmed): when the loop exits with unresolved jobs, the failure
path first sorts the remaining constant jobs and ancestor jobs — before
emitting any error — and the comparator used is exactly the lexicographic
order on (strictness level strictest first, file id, start offset, end
offset, constant depth less-nested first): substituting the
specification's lexicographic comparators for the code's changes
nothing. -/
theorem c4_failure_sort_is_lexicographic (gs : GlobalState) (fuel : Nat)
    (todo : List ResolutionItem) (todoAncestors : List AncestorItem) :
    failurePath gs fuel todo todoAncestors = failurePathSpec gs fuel todo todoAncestors ∧
    (∀ a b, todoCompare gs fuel a b = specTodoCompare gs fuel a b) ∧
    (∀ a b, ancestorCompare gs fuel a b = specAncestorCompare gs fuel a b) := by
  have h1 : todoCompare gs fuel = specTodoCompare gs fuel :=
    funext fun a => funext fun b => todoCompare_eq_spec gs fuel a b
  have h2 : ancestorCompare gs fuel = specAncestorCompare gs fuel :=
    funext fun a => funext fun b => ancestorCompare_eq_spec gs fuel a b
  refine ⟨?_, fun a b => todoCompare_eq_spec gs fuel a b,
    fun a b => ancestorCompare_eq_spec gs fuel a b⟩
  unfold failurePath failurePathSpec
  rw [h1, h2]

/-! ## Claim C5 -/

lemma failSuggestions_length_le_three (gs : GlobalState) (scope0 : SymbolRef)
    (cnst : NameRef) (autog : Bool) :
    (failSuggestions gs scope0 cnst autog).length ≤ 3 := by
  simp only [failSuggestions]
  split_ifs with h1 h2 h3
  · simp
  · simp only [List.length_take]
    omega
  · omega
  · simp

lemma resolveConstant_nonexistent_state (gs : GlobalState) (nesting : List SymbolRef)
    (orig : UnresolvedLit)
    (hr : symExists (resolveConstant gs nesting orig).2 = false) :
    (resolveConstant gs nesting orig).1 = gs := by
  rcases orig with ⟨sc, nm, lc⟩
  cases sc <;> simp only [resolveConstant] at hr ⊢
  case mk.constLit i => split_ifs at hr ⊢ <;> simp_all [symExists, untypedSym]
  case mk.resolvedLit s0 => split_ifs at hr ⊢ <;> simp_all [symExists, untypedSym]
  case mk.send r f a => simp [symExists, untypedSym] at hr
  case mk.selfRef => simp [symExists, untypedSym] at hr
  case mk.otherE => simp [symExists, untypedSym] at hr

def c5Gs : GlobalState :=
  { gsBlank with
      nodes := fun i =>
        if i = 1 then ⟨stubModuleSym, noSymbol, none, dummyLoc⟩
        else if i = 2 then ⟨noSymbol, noSymbol, some ⟨Expr.constLit 1, 42, dummyLoc⟩, dummyLoc⟩
        else ⟨noSymbol, noSymbol, none, dummyLoc⟩ }

def c5Job : ResolutionItem := ⟨[], 2⟩

/-- C5 (counterexample): a constant job whose scope prefix was itself
already stubbed to `StubModule` is still unresolved (and does not resolve
to a type alias), yet `constantResolutionFailed` emits no error at all —
it only stubs the symbol — so the claim's unconditional "emits an
unable-to-resolve-constant error" is false at this input. -/
theorem c5_counterexample :
    symExists (resolveConstant c5Gs c5Job.scope ⟨Expr.constLit 1, 42, dummyLoc⟩).2 = false ∧
    c5Gs.errors = [] ∧
    (constantResolutionFailed c5Gs c5Job).errors = [] ∧
    ((constantResolutionFailed c5Gs c5Job).nodes 2).symbol = stubModuleSym :=
  ⟨rfl, rfl, rfl, rfl⟩

/-- C5 (amended, proved): for every constant job still unresolved after
the fixpoint whose resolution attempt yields no symbol (in particular it
does not resolve to a type alias), `constantResolutionFailed` sets the
node's symbol to `StubModule` and records the best known resolution scope
on the node (normalised to no-symbol when that scope is `StubModule`); it
emits one "unable to resolve constant" error whose suggestion list
contains at most three fuzzy matches, except that no error is emitted when
the best known scope is `StubModule` and the constant is not the special
autogen name. -/
theorem c5_resolution_failed_amended (gs : GlobalState) (job : ResolutionItem)
    (orig : UnresolvedLit)
    (ho : (gs.nodes job.out).original = some orig)
    (hr : symExists (resolveConstant gs job.scope orig).2 = false) :
    ((constantResolutionFailed gs job).nodes job.out).symbol = stubModuleSym ∧
    ((constantResolutionFailed gs job).nodes job.out).resolutionScope =
      (if bestKnownScope gs job orig == stubModuleSym then noSymbol
       else bestKnownScope gs job orig) ∧
    (constantResolutionFailed gs job).errors =
      (if bestKnownScope gs job orig != stubModuleSym
          || (orig.cnst == (gs.symbols subclassesSym).name) then
        gs.errors ++ [⟨errStubConstant, orig.loc,
          failSuggestions gs (bestKnownScope gs job orig) orig.cnst
            (orig.cnst == (gs.symbols subclassesSym).name)⟩]
       else gs.errors) ∧
    (failSuggestions gs (bestKnownScope gs job orig) orig.cnst
      (orig.cnst == (gs.symbols subclassesSym).name)).length ≤ 3 := by
  have hstate := resolveConstant_nonexistent_state gs job.scope orig hr
  have hta : (symExists (resolveConstant gs job.scope orig).2 &&
      ((resolveConstant gs job.scope orig).1.symbols
        (resolveConstant gs job.scope orig).2).isTypeAlias) = false := by
    rw [hr]
    rfl
  refine ⟨?_, ?_, ?_, failSuggestions_length_le_three _ _ _ _⟩ <;>
    · simp only [constantResolutionFailed, ho, hta, Bool.false_eq_true, if_false, hstate]
      split_ifs <;> simp_all [updNode, GlobalState.addError]

def c5WitGs : GlobalState :=
  { gsBlank with
      nodes := fun i =>
        if i = 2 then ⟨noSymbol, noSymbol, some ⟨Expr.emptyTree, 30, dummyLoc⟩, dummyLoc⟩
        else ⟨noSymbol, noSymbol, none, dummyLoc⟩ }

/-- C5 witness: a concrete unresolved job whose best known scope is the
innermost nesting scope, on which the amended theorem applies. -/
theorem c5_resolution_failed_amended_witness :
    ((constantResolutionFailed c5WitGs ⟨[10], 2⟩).nodes 2).symbol = stubModuleSym :=
  (c5_resolution_failed_amended c5WitGs ⟨[10], 2⟩ ⟨Expr.emptyTree, 30, dummyLoc⟩ rfl rfl).1

/-! ## Claim C6 -/

lemma ancestorTypeAliasStage_symbols (gs : GlobalState) (job : AncestorItem) :
    (ancestorTypeAliasStage gs job).1.symbols = gs.symbols := by
  unfold ancestorTypeAliasStage
  split_ifs <;> rfl

lemma ancestorClassStage_symbols (gs : GlobalState) (job : AncestorItem) (r : SymbolRef) :
    (ancestorClassStage gs job r).1.symbols = gs.symbols := by
  unfold ancestorClassStage
  split_ifs <;> rfl

lemma ancestorCircularStage_symbols (gs : GlobalState) (job : AncestorItem) (r : SymbolRef) :
    (ancestorCircularStage gs job r).1.symbols = gs.symbols := by
  unfold ancestorCircularStage
  split_ifs <;> rfl

lemma ancestorClassStage_snd_stub (gs : GlobalState) (job : AncestorItem) :
    (ancestorClassStage gs job (stubSymbolForAncestor job)).2 = stubSymbolForAncestor job := by
  unfold ancestorClassStage
  split_ifs <;> rfl

lemma ancestorCircularStage_snd_stub (gs : GlobalState) (job : AncestorItem) :
    (ancestorCircularStage gs job (stubSymbolForAncestor job)).2
      = stubSymbolForAncestor job := by
  unfold ancestorCircularStage
  split_ifs <;> rfl

lemma ancestorClassStage_errors (gs : GlobalState) (job : AncestorItem) (r : SymbolRef) :
    ∃ d, (ancestorClassStage gs job r).1.errors = gs.errors ++ d := by
  unfold ancestorClassStage
  split_ifs
  · exact ⟨_, rfl⟩
  · exact ⟨[], by simp⟩

lemma ancestorCircularStage_errors (gs : GlobalState) (job : AncestorItem) (r : SymbolRef) :
    ∃ d, (ancestorCircularStage gs job r).1.errors = gs.errors ++ d := by
  unfold ancestorCircularStage
  split_ifs
  · exact ⟨_, rfl⟩
  · exact ⟨_, rfl⟩
  · exact ⟨[], by simp⟩

lemma ancestorWriteStage_superclass (gs : GlobalState) (job : AncestorItem)
    (hsup : job.isSuperclass = true)
    (hsc : (gs.symbols job.klass).superClass = todoSym) :
    ((ancestorWriteStage gs job (stubSymbolForAncestor job)).symbols job.klass).superClass
      = stubSymbolForAncestor job ∧
    (ancestorWriteStage gs job (stubSymbolForAncestor job)).errors = gs.errors := by
  unfold ancestorWriteStage
  simp [hsup, hsc, stubSymbolForAncestor, todoSym, stubSuperClassSym, symExists, updSym]

lemma ancestorWriteStage_mixin (gs : GlobalState) (job : AncestorItem) (r : SymbolRef)
    (hsup : job.isSuperclass = false) :
    ((ancestorWriteStage gs job r).symbols job.klass).mixins
      = (gs.symbols job.klass).mixins ++ [r] ∧
    (ancestorWriteStage gs job r).errors = gs.errors := by
  unfold ancestorWriteStage
  simp [hsup, updSym]

lemma c6_stages (gs : GlobalState) (job : AncestorItem)
    (h2 : (gs.symbols ((gs.nodes job.ancestor).symbol)).isTypeAlias = true ∨
      (gs.symbols (gs.dealiasF ((gs.nodes job.ancestor).symbol))).isClass = false) :
    ∀ s1 s2 s3,
      s1 = ancestorTypeAliasStage gs job →
      s2 = ancestorClassStage s1.1 job s1.2 →
      s3 = ancestorCircularStage s2.1 job s2.2 →
      s3.2 = stubSymbolForAncestor job ∧
      s3.1.symbols = gs.symbols ∧
      (∃ d, s3.1.errors = gs.errors ++ d ∧ errDynamicSuperclass ∈ d.map ErrRec.code) := by
  intro s1 s2 s3 e1 e2 e3
  have hsyms : s3.1.symbols = gs.symbols := by
    rw [e3, ancestorCircularStage_symbols, e2, ancestorClassStage_symbols, e1,
      ancestorTypeAliasStage_symbols]
  cases hta : (gs.symbols ((gs.nodes job.ancestor).symbol)).isTypeAlias with
  | true =>
    have hs1v : s1 =
        (gs.addError errDynamicSuperclass (gs.nodes job.ancestor).loc [],
          stubSymbolForAncestor job) := by
      rw [e1]
      unfold ancestorTypeAliasStage
      simp [hta]
    have hsnd2 : s2.2 = stubSymbolForAncestor job := by
      rw [e2, hs1v]
      exact ancestorClassStage_snd_stub _ job
    have hsnd3 : s3.2 = stubSymbolForAncestor job := by
      rw [e3, hsnd2]
      exact ancestorCircularStage_snd_stub _ job
    refine ⟨hsnd3, hsyms, ?_⟩
    obtain ⟨d2, hd2⟩ := ancestorClassStage_errors s1.1 job s1.2
    obtain ⟨d3, hd3⟩ := ancestorCircularStage_errors s2.1 job s2.2
    refine ⟨⟨errDynamicSuperclass, (gs.nodes job.ancestor).loc, []⟩ :: (d2 ++ d3),
      ?_, by simp⟩
    rw [e3, hd3, e2, hd2, hs1v]
    simp [GlobalState.addError]
  | false =>
    have hnc : (gs.symbols (gs.dealiasF ((gs.nodes job.ancestor).symbol))).isClass
        = false := by
      rcases h2 with h | h
      · rw [hta] at h
        exact absurd h (by simp)
      · exact h
    have hs1v : s1 = (gs, gs.dealiasF ((gs.nodes job.ancestor).symbol)) := by
      rw [e1]
      unfold ancestorTypeAliasStage
      simp [hta]
    have hs2v : s2 =
        (gs.addError errDynamicSuperclass (gs.nodes job.ancestor).loc [],
          stubSymbolForAncestor job) := by
      rw [e2, hs1v]
      unfold ancestorClassStage
      simp [hnc]
    have hsnd3 : s3.2 = stubSymbolForAncestor job := by
      rw [e3, hs2v]
      exact ancestorCircularStage_snd_stub _ job
    refine ⟨hsnd3, hsyms, ?_⟩
    obtain ⟨d3, hd3⟩ := ancestorCircularStage_errors s2.1 job s2.2
    refine ⟨⟨errDynamicSuperclass, (gs.nodes job.ancestor).loc, []⟩ :: d3, ?_, by simp⟩
    rw [e3, hd3, hs2v]
    simp [GlobalState.addError]

/-- C6 (confirmed): an ancestor job whose (existing) ancestor symbol is a
type alias, or whose dealiased symbol is not a class, stays pending on
every non-final pass with no state change; on the final pass the job
completes, a dynamic-superclass error is reported, and the stub symbol —
`StubSuperClass` for a superclass job, `StubMixin` for a mixin job — is
substituted: written as the class's superclass (here from the namer's
`todo` placeholder) or appended to its mixins. -/
theorem c6_ancestor_type_alias_policy (gs : GlobalState) (job : AncestorItem)
    (h1 : symExists ((gs.nodes job.ancestor).symbol) = true)
    (h2 : (gs.symbols ((gs.nodes job.ancestor).symbol)).isTypeAlias = true ∨
      (gs.symbols (gs.dealiasF ((gs.nodes job.ancestor).symbol))).isClass = false)
    (h3 : (gs.symbols job.klass).superClass = todoSym) :
    resolveAncestorJob gs job false = (gs, false) ∧
    (resolveAncestorJob gs job true).2 = true ∧
    (∃ d, (resolveAncestorJob gs job true).1.errors = gs.errors ++ d ∧
      errDynamicSuperclass ∈ d.map ErrRec.code) ∧
    stubSymbolForAncestor job
      = (if job.isSuperclass then stubSuperClassSym else stubMixinSym) ∧
    (job.isSuperclass = true →
      ((resolveAncestorJob gs job true).1.symbols job.klass).superClass
        = stubSymbolForAncestor job) ∧
    (job.isSuperclass = false →
      ((resolveAncestorJob gs job true).1.symbols job.klass).mixins
        = (gs.symbols job.klass).mixins ++ [stubSymbolForAncestor job]) := by
  have hnotfail : (!symExists ((gs.nodes job.ancestor).symbol)) = false := by simp [h1]
  obtain ⟨hsnd, hsyms, hde⟩ :
      (ancestorCircularStage
        (ancestorClassStage (ancestorTypeAliasStage gs job).1 job
          (ancestorTypeAliasStage gs job).2).1 job
        (ancestorClassStage (ancestorTypeAliasStage gs job).1 job
          (ancestorTypeAliasStage gs job).2).2).2 = stubSymbolForAncestor job ∧
      (ancestorCircularStage
        (ancestorClassStage (ancestorTypeAliasStage gs job).1 job
          (ancestorTypeAliasStage gs job).2).1 job
        (ancestorClassStage (ancestorTypeAliasStage gs job).1 job
          (ancestorTypeAliasStage gs job).2).2).1.symbols = gs.symbols ∧
      ∃ d, (ancestorCircularStage
        (ancestorClassStage (ancestorTypeAliasStage gs job).1 job
          (ancestorTypeAliasStage gs job).2).1 job
        (ancestorClassStage (ancestorTypeAliasStage gs job).1 job
          (ancestorTypeAliasStage gs job).2).2).1.errors = gs.errors ++ d ∧
        errDynamicSuperclass ∈ d.map ErrRec.code := by
    obtain ⟨a, b, c⟩ := c6_stages gs job h2 _ _ _ rfl rfl rfl
    exact ⟨a, b, c⟩
  have hlast : resolveAncestorJob gs job true =
      (ancestorWriteStage
        (ancestorCircularStage
          (ancestorClassStage (ancestorTypeAliasStage gs job).1 job
            (ancestorTypeAliasStage gs job).2).1 job
          (ancestorClassStage (ancestorTypeAliasStage gs job).1 job
            (ancestorTypeAliasStage gs job).2).2).1 job
        (ancestorCircularStage
          (ancestorClassStage (ancestorTypeAliasStage gs job).1 job
            (ancestorTypeAliasStage gs job).2).1 job
          (ancestorClassStage (ancestorTypeAliasStage gs job).1 job
            (ancestorTypeAliasStage gs job).2).2).2, true) := by
    simp only [resolveAncestorJob, hnotfail, Bool.false_eq_true, if_false,
      Bool.not_true, Bool.and_false]
  have hfirst : resolveAncestorJob gs job false = (gs, false) := by
    cases hta : (gs.symbols ((gs.nodes job.ancestor).symbol)).isTypeAlias with
    | true =>
      simp only [resolveAncestorJob, hnotfail, Bool.false_eq_true, if_false, hta,
        Bool.not_false, Bool.and_true, if_pos]
    | false =>
      have hnc : (gs.symbols (gs.dealiasF ((gs.nodes job.ancestor).symbol))).isClass
          = false := by
        rcases h2 with h | h
        · rw [hta] at h
          exact absurd h (by simp)
        · exact h
      have hs1v : ancestorTypeAliasStage gs job
          = (gs, gs.dealiasF ((gs.nodes job.ancestor).symbol)) := by
        unfold ancestorTypeAliasStage
        simp [hta]
      simp [resolveAncestorJob, hnotfail, hta, hs1v, hnc]
  refine ⟨hfirst, by rw [hlast], ?_, rfl, ?_, ?_⟩
  · rw [hlast]
    obtain ⟨d, hd, hm⟩ := hde
    cases hsup : job.isSuperclass with
    | true =>
      rw [hsnd]
      have hw := ancestorWriteStage_superclass _ job hsup (by rw [hsyms]; exact h3)
      exact ⟨d, by rw [hw.2, hd], hm⟩
    | false =>
      rw [hsnd]
      exact ⟨d, by
        rw [(ancestorWriteStage_mixin _ job (stubSymbolForAncestor job) hsup).2, hd], hm⟩
  · intro hsup
    rw [hlast, hsnd]
    exact (ancestorWriteStage_superclass _ job hsup (by rw [hsyms]; exact h3)).1
  · intro hsup
    rw [hlast, hsnd,
      (ancestorWriteStage_mixin _ job (stubSymbolForAncestor job) hsup).1, hsyms]

def c6Gs : GlobalState :=
  { gsBlank with
      symbols := fun s =>
        if s = 9 then { blankSym with isTypeAlias := true }
        else if s = 11 then { blankSym with superClass := todoSym }
        else blankSym,
      nodes := fun i =>
        if i = 3 then ⟨9, noSymbol, none, dummyLoc⟩
        else ⟨noSymbol, noSymbol, none, dummyLoc⟩ }

/-- C6 witness: a superclass job whose ancestor resolved to a type alias,
run through the theorem at a concrete state. -/
theorem c6_ancestor_type_alias_policy_witness :
    resolveAncestorJob c6Gs ⟨3, 11, true⟩ false = (c6Gs, false) ∧
    ((resolveAncestorJob c6Gs ⟨3, 11, true⟩ true).1.symbols 11).superClass
      = stubSuperClassSym :=
  have h := c6_ancestor_type_alias_policy c6Gs ⟨3, 11, true⟩ rfl (Or.inl rfl) rfl
  ⟨h.1, h.2.2.2.2.1 rfl⟩

/-! ## Claim C7 -/

/-- C7 (confirmed): a type-alias job whose left-hand-side symbol sits
inside a generic class (the enclosing class has a type member) reports a
type-alias-in-generic-class error, sets the alias symbol's result type to
untyped, and completes — all without invoking the type-syntax service on
the right-hand side. -/
theorem c7_type_alias_in_generic_class (gs : GlobalState) (job : TypeAliasItem)
    (hf : 1 ≤ gs.searchFuel)
    (hroot : (gs.enclosingClassF job.lhs == rootSym) = false)
    (htm : (gs.symbols (gs.enclosingClassF job.lhs)).typeMembers.headD noSymbol
      ≠ noSymbol) :
    (resolveTypeAliasJob gs job).2 = true ∧
    ((resolveTypeAliasJob gs job).1.symbols job.lhs).resultType
      = some (Ty.untypedBlame job.lhs) ∧
    (resolveTypeAliasJob gs job).1.errors
      = gs.errors ++ [⟨errTypeAliasInGenericClass, dummyLoc, []⟩] ∧
    (resolveTypeAliasJob gs job).1.tsCalls = gs.tsCalls := by
  have hfind : findEnclosingTypeMember gs gs.searchFuel (gs.enclosingClassF job.lhs)
      = (gs.symbols (gs.enclosingClassF job.lhs)).typeMembers.headD noSymbol := by
    obtain ⟨n, hn⟩ : ∃ n, gs.searchFuel = n + 1 := by
      cases hsf : gs.searchFuel
      · omega
      · exact ⟨_, rfl⟩
    rw [hn]
    cases hl : (gs.symbols (gs.enclosingClassF job.lhs)).typeMembers with
    | nil =>
      rw [hl] at htm
      simp at htm
    | cons tm rest =>
      simp only [findEnclosingTypeMember, hroot, Bool.false_eq_true, if_false, hl,
        List.headD_cons]
  have hse : symExists
      (findEnclosingTypeMember gs gs.searchFuel (gs.enclosingClassF job.lhs)) = true := by
    rw [hfind]
    simp only [symExists, bne_iff_ne, ne_eq]
    exact fun h => htm h
  refine ⟨?_, ?_, ?_, ?_⟩ <;>
    simp [resolveTypeAliasJob, hse, updSym, GlobalState.addError]

def c7Gs : GlobalState :=
  { gsBlank with
      symbols := fun s =>
        if s = 12 then { blankSym with typeMembers := [13] }
        else blankSym,
      enclosingClassF := fun _ => 12 }

/-- C7 witness: a concrete type-alias job declared inside a generic class. -/
theorem c7_type_alias_in_generic_class_witness :
    (resolveTypeAliasJob c7Gs ⟨20, Expr.otherE⟩).2 = true ∧
    ((resolveTypeAliasJob c7Gs ⟨20, Expr.otherE⟩).1.symbols 20).resultType
      = some (Ty.untypedBlame 20) :=
  have h := c7_type_alias_in_generic_class c7Gs ⟨20, Expr.otherE⟩ (by decide) rfl
    (by decide)
  ⟨h.1, h.2.1⟩

/-! ## Claim C10 -/

/-- C10 (confirmed): an assignment of a nullary `T.type_alias()` call to a
static-field constant synthesizes an untyped argument in place, reports an
invalid-type-alias error, and still enqueues both a type-alias job (for
the synthesized argument) and a constant job for the left-hand side; and
whenever the enqueued type-alias job later runs (in any state where `T` is
not itself a type alias), it completes and leaves the alias symbol with a
non-null result type. -/
theorem c10_nullary_type_alias (gs : GlobalState) (w : Walker) (recv : Expr)
    (hid : NodeId)
    (hsf : (gs.symbols ((gs.nodes hid).symbol)).isStaticField = true) :
    (postTransformAssignRC gs w
      ⟨Expr.constLit hid, Expr.send recv typeAliasName []⟩).1.errors
      = gs.errors ++ [⟨errInvalidTypeAlias, dummyLoc, []⟩] ∧
    (postTransformAssignRC gs w
      ⟨Expr.constLit hid, Expr.send recv typeAliasName []⟩).2.1.todoTypeAliases
      = w.todoTypeAliases ++ [⟨(gs.nodes hid).symbol, mkUntyped⟩] ∧
    (postTransformAssignRC gs w
      ⟨Expr.constLit hid, Expr.send recv typeAliasName []⟩).2.1.todo
      = w.todo ++ [⟨w.nesting, hid⟩] ∧
    (postTransformAssignRC gs w
      ⟨Expr.constLit hid, Expr.send recv typeAliasName []⟩).2.2.rhs
      = Expr.send recv typeAliasName [mkUntyped] ∧
    (∀ gs2 : GlobalState, (gs2.symbols tSym).isTypeAlias = false →
      (resolveTypeAliasJob gs2 ⟨(gs.nodes hid).symbol, mkUntyped⟩).2 = true ∧
      ((resolveTypeAliasJob gs2 ⟨(gs.nodes hid).symbol, mkUntyped⟩).1.symbols
        ((gs.nodes hid).symbol)).resultType.isSome = true) := by
  have hns : (!(gs.symbols ((gs.nodes hid).symbol)).isStaticField) = false := by
    simp [hsf]
  refine ⟨?_, ?_, ?_, ?_, ?_⟩
  · simp [postTransformAssignRC, hns, GlobalState.addError]
  · simp [postTransformAssignRC, hns]
  · simp [postTransformAssignRC, hns]
  · simp [postTransformAssignRC, hns]
  · intro gs2 hT
    have hfr : isFullyResolved gs2 mkUntyped = true := by
      simp [mkUntyped, isFullyResolved, allFullyResolved, isAlreadyResolvedSym,
        symExists, tSym]
      exact Or.inl hT
    cases he : symExists (findEnclosingTypeMember gs2 gs2.searchFuel
        (gs2.enclosingClassF ((gs.nodes hid).symbol))) with
    | true =>
      constructor <;> simp [resolveTypeAliasJob, he, updSym]
    | false =>
      constructor <;> simp [resolveTypeAliasJob, he, hfr, updSym]

def c10Gs : GlobalState :=
  { gsBlank with
      symbols := fun s =>
        if s = 21 then { blankSym with isStaticField := true } else blankSym,
      nodes := fun i =>
        if i = 5 then ⟨21, noSymbol, none, dummyLoc⟩
        else ⟨noSymbol, noSymbol, none, dummyLoc⟩ }

/-- C10 witness: a concrete nullary `T.type_alias()` assignment to a
static field. -/
theorem c10_nullary_type_alias_witness :
    (postTransformAssignRC c10Gs ⟨[1], [], [], []⟩
      ⟨Expr.constLit 5, Expr.send Expr.otherE typeAliasName []⟩).1.errors
      = c10Gs.errors ++ [⟨errInvalidTypeAlias, dummyLoc, []⟩] ∧
    (resolveTypeAliasJob gsBlank ⟨(c10Gs.nodes 5).symbol, mkUntyped⟩).2 = true :=
  have h := c10_nullary_type_alias c10Gs ⟨[1], [], [], []⟩ Expr.otherE 5 rfl
  ⟨h.1, (h.2.2.2.2 gsBlank rfl).1⟩

/-! ## Claim C8 -/

/-- The bounds the specification describes for a type-member declaration:
initialise to `(bottom, top)`; a `fixed:` key sets both bounds to its
converted type, `lower:` and `upper:` the respective bound. -/
def specBoundsOf (st : TPState) (send : TPSend) : Ty × Ty :=
  match hashArgOf send with
  | some kv => applyHashKeys st kv.1 kv.2 (Ty.bottomTy, Ty.topTy)
  | none => (Ty.bottomTy, Ty.topTy)

lemma updBounds_self (st : TPState) (s : SymbolRef) (b : Ty × Ty) :
    (updBounds st s b).bounds s = b := by
  simp [updBounds]

lemma updBounds_other (st : TPState) (s : SymbolRef) (b : Ty × Ty) (x : SymbolRef)
    (h : x ≠ s) : (updBounds st s b).bounds x = st.bounds x := by
  simp [updBounds, h]

lemma tpParentNonTMErr_symbols (st : TPState) (pm : SymbolRef) :
    (tpParentNonTMErr st pm).symbols = st.symbols := by
  simp only [tpParentNonTMErr]
  split_ifs <;> rfl

lemma tpParentNonTMErr_bounds (st : TPState) (pm : SymbolRef) :
    (tpParentNonTMErr st pm).bounds = st.bounds := by
  simp only [tpParentNonTMErr]
  split_ifs <;> rfl

lemma tpParentNonTMErr_isSub (st : TPState) (pm : SymbolRef) :
    (tpParentNonTMErr st pm).isSubTypeF = st.isSubTypeF := by
  simp only [tpParentNonTMErr]
  split_ifs <;> rfl

lemma tpParentNonTMErr_getRes (st : TPState) (pm : SymbolRef) :
    (tpParentNonTMErr st pm).getResultTypeTP = st.getResultTypeTP := by
  simp only [tpParentNonTMErr]
  split_ifs <;> rfl

lemma tpParentBoundsCheck_bounds (st : TPState) (pm : SymbolRef) (nb : Ty × Ty) :
    (tpParentBoundsCheck st pm nb).bounds = st.bounds := by
  simp only [tpParentBoundsCheck]
  split_ifs <;> rfl

lemma tpParentBoundsCheck_isSub (st : TPState) (pm : SymbolRef) (nb : Ty × Ty) :
    (tpParentBoundsCheck st pm nb).isSubTypeF = st.isSubTypeF := by
  simp only [tpParentBoundsCheck]
  split_ifs <;> rfl

lemma tpLowerUpperCheck_bounds (st : TPState) (nb : Ty × Ty) :
    (tpLowerUpperCheck st nb).bounds = st.bounds := by
  simp only [tpLowerUpperCheck]
  split_ifs <;> rfl

lemma tpParentNonTMErr_errors (st : TPState) (pm : SymbolRef) :
    (tpParentNonTMErr st pm).errors = st.errors ++
      (if symExists pm && !(st.symbols pm).isTypeMember
       then [errParentTypeBoundsMismatch] else []) := by
  simp only [tpParentNonTMErr]
  split_ifs <;> simp [tpError]

lemma tpParentBoundsCheck_errors (st : TPState) (pm : SymbolRef) (nb : Ty × Ty) :
    (tpParentBoundsCheck st pm nb).errors = st.errors ++
      (if symExists pm && (st.symbols pm).isTypeMember then
        (if !st.isSubTypeF (st.bounds pm).1 nb.1
         then [errParentTypeBoundsMismatch] else [])
        ++ (if !st.isSubTypeF nb.2 (st.bounds pm).2
         then [errParentTypeBoundsMismatch] else [])
       else []) := by
  simp only [tpParentBoundsCheck]
  split_ifs <;> simp_all [tpError]

lemma tpLowerUpperCheck_errors (st : TPState) (nb : Ty × Ty) :
    (tpLowerUpperCheck st nb).errors = st.errors ++
      (if !st.isSubTypeF nb.1 nb.2 then [errInvalidTypeMemberBounds] else []) := by
  simp only [tpLowerUpperCheck]
  split_ifs <;> simp [tpError]

lemma applyHashKeys_congr (st st' : TPState)
    (h : st.getResultTypeTP = st'.getResultTypeTP) :
    ∀ (l : List (TPExpr × TPExpr)) (b : Ty × Ty),
      l.foldl
        (fun acc kv =>
          match kv.1 with
          | .symLit nm =>
            let resTy := st.getResultTypeTP kv.2
            if nm == fixedName then (resTy, resTy)
            else if nm == lowerName then (resTy, acc.2)
            else if nm == upperName then (acc.1, resTy)
            else acc
          | _ => acc) b
      = l.foldl
        (fun acc kv =>
          match kv.1 with
          | .symLit nm =>
            let resTy := st'.getResultTypeTP kv.2
            if nm == fixedName then (resTy, resTy)
            else if nm == lowerName then (resTy, acc.2)
            else if nm == upperName then (acc.1, resTy)
            else acc
          | _ => acc) b := by
  intro l b
  rw [h]

lemma applyHashKeys_eq (st st' : TPState)
    (h : st.getResultTypeTP = st'.getResultTypeTP) (ks vs : List TPExpr) (b : Ty × Ty) :
    applyHashKeys st ks vs b = applyHashKeys st' ks vs b := by
  unfold applyHashKeys
  exact applyHashKeys_congr st st' h (ks.zip vs) b

/-- C8 (confirmed): for an assignment bound to a type-member symbol, the
walk first initialises the member's bounds to `(bottom, top)` and then
applies the declaration's hash keys — `fixed:` sets both bounds, `lower:`
and `upper:` the respective bound; when the parent class has a member of
the same name, a parent-bounds-mismatch error is reported if that member
is not a type member, or if `parent.lower ≤ this.lower` fails, or if
`this.upper ≤ parent.upper` fails; finally an invalid-bounds error is
reported unless the resulting lower bound is a subtype of the upper
bound. -/
theorem c8_type_member_bounds (st : TPState) (lhsSym : SymbolRef) (send : TPSend)
    (hta : (st.symbols lhsSym).isTypeAlias = false)
    (htm : (st.symbols lhsSym).isTypeMember = true)
    (hpm : tpParentMemberOf st lhsSym ≠ lhsSym) :
    (postTransformAssignTP st lhsSym send).bounds lhsSym = specBoundsOf st send ∧
    (postTransformAssignTP st lhsSym send).errors =
      st.errors
        ++ (if symExists (tpParentMemberOf st lhsSym)
              && !(st.symbols (tpParentMemberOf st lhsSym)).isTypeMember
            then [errParentTypeBoundsMismatch] else [])
        ++ (if symExists (tpParentMemberOf st lhsSym)
              && (st.symbols (tpParentMemberOf st lhsSym)).isTypeMember then
            (if !st.isSubTypeF (st.bounds (tpParentMemberOf st lhsSym)).1
                (specBoundsOf st send).1
             then [errParentTypeBoundsMismatch] else [])
            ++ (if !st.isSubTypeF (specBoundsOf st send).2
                (st.bounds (tpParentMemberOf st lhsSym)).2
             then [errParentTypeBoundsMismatch] else [])
           else [])
        ++ (if !st.isSubTypeF (specBoundsOf st send).1 (specBoundsOf st send).2
            then [errInvalidTypeMemberBounds] else []) := by
  have hgetres : (tpParentNonTMErr (updBounds st lhsSym (Ty.bottomTy, Ty.topTy))
      (tpParentMemberOf st lhsSym)).getResultTypeTP = st.getResultTypeTP := by
    rw [tpParentNonTMErr_getRes]
    rfl
  have hnb : (match hashArgOf send with
      | some kv => applyHashKeys (tpParentNonTMErr
          (updBounds st lhsSym (Ty.bottomTy, Ty.topTy))
          (tpParentMemberOf st lhsSym)) kv.1 kv.2 (Ty.bottomTy, Ty.topTy)
      | none => (Ty.bottomTy, Ty.topTy)) = specBoundsOf st send := by
    unfold specBoundsOf
    cases hashArgOf send with
    | none => rfl
    | some kv => exact applyHashKeys_eq _ st hgetres kv.1 kv.2 _
  have hsy1 : (tpParentNonTMErr (updBounds st lhsSym (Ty.bottomTy, Ty.topTy))
      (tpParentMemberOf st lhsSym)).symbols = st.symbols := by
    rw [tpParentNonTMErr_symbols]
    rfl
  have hbo1 : (tpParentNonTMErr (updBounds st lhsSym (Ty.bottomTy, Ty.topTy))
      (tpParentMemberOf st lhsSym)).bounds (tpParentMemberOf st lhsSym)
      = st.bounds (tpParentMemberOf st lhsSym) := by
    rw [tpParentNonTMErr_bounds, updBounds_other _ _ _ _ hpm]
  have hsub1 : (tpParentNonTMErr (updBounds st lhsSym (Ty.bottomTy, Ty.topTy))
      (tpParentMemberOf st lhsSym)).isSubTypeF = st.isSubTypeF := by
    rw [tpParentNonTMErr_isSub]
    rfl
  have herr1 : (tpParentNonTMErr (updBounds st lhsSym (Ty.bottomTy, Ty.topTy))
      (tpParentMemberOf st lhsSym)).errors = st.errors ++
      (if symExists (tpParentMemberOf st lhsSym)
        && !(st.symbols (tpParentMemberOf st lhsSym)).isTypeMember
       then [errParentTypeBoundsMismatch] else []) := by
    rw [tpParentNonTMErr_errors]
    rfl
  constructor
  · simp only [postTransformAssignTP, hta, Bool.false_eq_true, if_false, htm, if_pos]
    rw [tpLowerUpperCheck_bounds, tpParentBoundsCheck_bounds, updBounds_self]
    exact hnb
  · simp only [postTransformAssignTP, hta, Bool.false_eq_true, if_false, htm, if_pos]
    rw [tpLowerUpperCheck_errors, tpParentBoundsCheck_errors]
    simp only [hnb]
    have hs2sy : ∀ b, (updBounds (tpParentNonTMErr
        (updBounds st lhsSym (Ty.bottomTy, Ty.topTy)) (tpParentMemberOf st lhsSym))
        lhsSym b).symbols = st.symbols := by
      intro b
      rw [show (updBounds (tpParentNonTMErr (updBounds st lhsSym (Ty.bottomTy, Ty.topTy))
        (tpParentMemberOf st lhsSym)) lhsSym b).symbols
        = (tpParentNonTMErr (updBounds st lhsSym (Ty.bottomTy, Ty.topTy))
          (tpParentMemberOf st lhsSym)).symbols from rfl, hsy1]
    have hs2bo : ∀ b, (updBounds (tpParentNonTMErr
        (updBounds st lhsSym (Ty.bottomTy, Ty.topTy)) (tpParentMemberOf st lhsSym))
        lhsSym b).bounds (tpParentMemberOf st lhsSym)
        = st.bounds (tpParentMemberOf st lhsSym) := by
      intro b
      rw [updBounds_other _ _ _ _ hpm, hbo1]
    have hs2sub : ∀ b, (updBounds (tpParentNonTMErr
        (updBounds st lhsSym (Ty.bottomTy, Ty.topTy)) (tpParentMemberOf st lhsSym))
        lhsSym b).isSubTypeF = st.isSubTypeF := by
      intro b
      rw [show (updBounds (tpParentNonTMErr (updBounds st lhsSym (Ty.bottomTy, Ty.topTy))
        (tpParentMemberOf st lhsSym)) lhsSym b).isSubTypeF
        = (tpParentNonTMErr (updBounds st lhsSym (Ty.bottomTy, Ty.topTy))
          (tpParentMemberOf st lhsSym)).isSubTypeF from rfl, hsub1]
    have hs2err : ∀ b, (updBounds (tpParentNonTMErr
        (updBounds st lhsSym (Ty.bottomTy, Ty.topTy)) (tpParentMemberOf st lhsSym))
        lhsSym b).errors = st.errors ++
        (if symExists (tpParentMemberOf st lhsSym)
          && !(st.symbols (tpParentMemberOf st lhsSym)).isTypeMember
         then [errParentTypeBoundsMismatch] else []) := by
      intro b
      rw [show (updBounds (tpParentNonTMErr (updBounds st lhsSym (Ty.bottomTy, Ty.topTy))
        (tpParentMemberOf st lhsSym)) lhsSym b).errors
        = (tpParentNonTMErr (updBounds st lhsSym (Ty.bottomTy, Ty.topTy))
          (tpParentMemberOf st lhsSym)).errors from rfl, herr1]
    have hs3sub : (tpParentBoundsCheck (updBounds (tpParentNonTMErr
        (updBounds st lhsSym (Ty.bottomTy, Ty.topTy)) (tpParentMemberOf st lhsSym))
        lhsSym (specBoundsOf st send)) (tpParentMemberOf st lhsSym)
        (specBoundsOf st send)).isSubTypeF = st.isSubTypeF := by
      rw [tpParentBoundsCheck_isSub, hs2sub]
    rw [hs2sy, hs2bo, hs2sub, hs2err, hs3sub, List.append_assoc, List.append_assoc]

def c8St : TPState :=
  ⟨fun s =>
      if s = 40 then ⟨false, true, 41, 0, fun _ => 0, 60⟩
      else if s = 42 then ⟨false, true, 0, 0, fun _ => 0, 60⟩
      else if s = 41 then ⟨false, false, 0, 43, fun _ => 0, 0⟩
      else if s = 43 then ⟨false, false, 0, 0, fun nm => if nm = 60 then 42 else 0, 0⟩
      else ⟨false, false, 0, 0, fun _ => 0, 0⟩,
    fun _ => (Ty.bottomTy, Ty.topTy),
    fun _ _ => true,
    fun _ => Ty.miscTy 1,
    []⟩

/-- C8 witness: a type member with a `fixed:` key and a parent type member
of the same name, run through the theorem. -/
theorem c8_type_member_bounds_witness :
    (postTransformAssignTP c8St 40
      ⟨[TPExpr.hashE [TPExpr.symLit fixedName] [TPExpr.nonSymLit]]⟩).bounds 40
      = specBoundsOf c8St ⟨[TPExpr.hashE [TPExpr.symLit fixedName] [TPExpr.nonSymLit]]⟩ :=
  (c8_type_member_bounds c8St 40
    ⟨[TPExpr.hashE [TPExpr.symLit fixedName] [TPExpr.nonSymLit]]⟩ rfl rfl (by decide)).1

/-! ## Claim C9 -/

/-- The argument positions the specification describes: the positions of
the method's arguments whose name the sig's parameter list mentions. -/
def specKeep (mdef : MDefInfo) (sig : SigInfo) : List Nat :=
  mdef.args.enum.filterMap (fun p => if p.2 ∈ sig.argNames then some p.1 else none)

/-- The per-sig overload events the specification describes, starting from
a given fresh symbol id: one new overload symbol per sig carrying the
argument positions its parameter list mentions, marked `Overloaded` for
every sig except the last, then its signature fill. -/
def specSigEvents (mdef : MDefInfo) (total : Nat) (fresh : Nat) :
    List (Nat × SigInfo) → List SigEvent
  | [] => []
  | p :: ps =>
    [SigEvent.enterOverload mdef.symbol mdef.symName p.1 (specKeep mdef p.2) fresh]
      ++ (if p.1 ≠ total - 1 then [SigEvent.setOverloaded fresh] else [])
      ++ [SigEvent.fillInfo fresh p.1]
      ++ specSigEvents mdef total (fresh + 1) ps

lemma foldl_keep_eq (P : NameRef → Prop) [DecidablePred P] :
    ∀ (l : List (Nat × NameRef)) (acc : List Nat),
      l.foldl (fun acc p => if P p.2 then acc ++ [p.1] else acc) acc
        = acc ++ l.filterMap (fun p => if P p.2 then some p.1 else none) := by
  intro l
  induction l with
  | nil => intro acc; simp
  | cons p ps ih =>
    intro acc
    simp only [List.foldl_cons, List.filterMap_cons]
    by_cases h : P p.2
    · simp [h, ih]
    · simp [h, ih]

lemma argsToKeepFor_eq_specKeep (mdef : MDefInfo) (sig : SigInfo) :
    argsToKeepFor mdef sig = specKeep mdef sig := by
  unfold argsToKeepFor specKeep
  rw [foldl_keep_eq (fun nm => nm ∈ sig.argNames) mdef.args.enum []]
  simp

lemma processOneSig_true_fold (mdef : MDefInfo) (total : Nat) :
    ∀ (ps : List (Nat × SigInfo)) (s : SigState),
      ((ps.foldl
        (fun s p => processOneSig true mdef mdef.symName total s p.1 p.2) s).events
        = s.events ++ specSigEvents mdef total s.freshId ps) ∧
      ((ps.foldl
        (fun s p => processOneSig true mdef mdef.symName total s p.1 p.2) s).freshId
        = s.freshId + ps.length) := by
  intro ps
  induction ps with
  | nil => intro s; simp [specSigEvents]
  | cons p rest ih =>
    intro s
    simp only [List.foldl_cons]
    have hstep : processOneSig true mdef mdef.symName total s p.1 p.2 =
        { s with
            freshId := s.freshId + 1,
            events := s.events
              ++ [SigEvent.enterOverload mdef.symbol mdef.symName p.1
                    (specKeep mdef p.2) s.freshId]
              ++ (if p.1 ≠ total - 1 then [SigEvent.setOverloaded s.freshId] else [])
              ++ [SigEvent.fillInfo s.freshId p.1] } := by
      simp only [processOneSig, argsToKeepFor_eq_specKeep]
      by_cases h : p.1 = total - 1
      · simp [h]
      · have hb : (p.1 != total - 1) = true := by simp [h]
        simp [hb, h]
    rw [hstep]
    obtain ⟨ihe, ihf⟩ := ih
      { s with
          freshId := s.freshId + 1,
          events := s.events
            ++ [SigEvent.enterOverload mdef.symbol mdef.symName p.1
                  (specKeep mdef p.2) s.freshId]
            ++ (if p.1 ≠ total - 1 then [SigEvent.setOverloaded s.freshId] else [])
            ++ [SigEvent.fillInfo s.freshId p.1] }
    refine ⟨?_, ?_⟩
    · rw [ihe]
      simp [specSigEvents, List.append_assoc]
    · rw [ihf]
      simp [List.length_cons]
      omega

lemma processOneSig_false_fold (mdef : MDefInfo) (total : Nat) :
    ∀ (ps : List (Nat × SigInfo)) (s : SigState),
      (ps.foldl
        (fun s p => processOneSig false mdef mdef.symName total s p.1 p.2) s).events
        = s.events ++ ps.map (fun p => SigEvent.fillInfo mdef.symbol p.1) := by
  intro ps
  induction ps with
  | nil => intro s; simp
  | cons p rest ih =>
    intro s
    rw [List.foldl_cons]
    have hstep : processOneSig false mdef mdef.symName total s p.1 p.2 =
        { s with events := s.events ++ [SigEvent.fillInfo mdef.symbol p.1] } := rfl
    rw [hstep, ih]
    simp

/-- C9 (confirmed): for a method definition preceded by more than one
buffered sig, overload elaboration happens only when the file permits
overload definitions: without permission no symbol is renamed or entered
(each sig is merely applied to the original method symbol); with
permission the original method symbol is mangle-renamed, one new overload
symbol is entered per sig carrying exactly the argument positions that the
sig's parameter list mentions, and every entered overload symbol except
the last is marked `Overloaded`. -/
theorem c9_multiple_sigs_overload (st : SigState) (lastSigs : List SigInfo)
    (mdef : MDefInfo) (hmulti : 1 < lastSigs.length) :
    (st.permitOverloadDefinitions mdef.file = false →
      (processSigs st lastSigs mdef).events
        = st.events ++ lastSigs.enum.map (fun p => SigEvent.fillInfo mdef.symbol p.1)) ∧
    (st.permitOverloadDefinitions mdef.file = true →
      (processSigs st lastSigs mdef).events
        = st.events ++ [SigEvent.mangleRename mdef.symbol mdef.symName]
          ++ specSigEvents mdef lastSigs.length st.freshId lastSigs.enum) ∧
    (∀ sig : SigInfo, argsToKeepFor mdef sig = specKeep mdef sig) := by
  have hne : lastSigs.isEmpty = false := by
    cases lastSigs
    · simp at hmulti
    · simp
  have hdec : decide (lastSigs.length > 1) = true := by
    simp [hmulti]
  refine ⟨?_, ?_, fun sig => argsToKeepFor_eq_specKeep mdef sig⟩
  · intro hperm
    simp only [processSigs, hne, Bool.false_eq_true, if_false, hdec, hperm,
      Bool.true_and, Bool.and_false]
    rw [processOneSig_false_fold mdef lastSigs.length lastSigs.enum st]
  · intro hperm
    simp only [processSigs, hne, Bool.false_eq_true, if_false, hdec, hperm,
      Bool.true_and, Bool.and_true, if_pos]
    rw [(processOneSig_true_fold mdef lastSigs.length lastSigs.enum
      { st with events := st.events
          ++ [SigEvent.mangleRename mdef.symbol mdef.symName] }).1]

def c9St : SigState := ⟨fun _ => true, 100, []⟩

/-- C9 witness: two sigs before one method definition in a file that
permits overloads. -/
theorem c9_multiple_sigs_overload_witness :
    (processSigs c9St [⟨dummyLoc, [70]⟩, ⟨dummyLoc, [71]⟩] ⟨90, 91, [70, 71], 0⟩).events
      = c9St.events ++ [SigEvent.mangleRename 90 91]
        ++ specSigEvents ⟨90, 91, [70, 71], 0⟩ 2 100
            [⟨dummyLoc, [70]⟩, ⟨dummyLoc, [71]⟩].enum :=
  ((c9_multiple_sigs_overload c9St [⟨dummyLoc, [70]⟩, ⟨dummyLoc, [71]⟩] ⟨90, 91, [70, 71], 0⟩
    (by decide)).2.1) rfl
